import Mathlib

/-!
# Verification of the flexicomic panel-generation subsystem

Shallow embedding of the panel-generation orchestration code of the
flexicomic repository (TypeScript running on Bun): the grid geometry
engine (`scripts/utils/layout-parser.ts`), the retrying image-generation
adapter (`scripts/utils/image-gen-adapter.ts`), the range validators
(`scripts/validation.ts`), the render-job runner and generation
controller (`scripts/parallel.ts`), and the job-collection phase of
`generateComic` (`scripts/generate.ts`).

Modelling conventions:
* JavaScript numbers are modelled as `ℚ` (the code performs exact
  rational arithmetic on them in the fragments verified here); `x / 0`
  in `ℚ` is `0` whereas JS yields `Infinity`, so theorems about
  geometry at degenerate grids avoid asserting concrete values there.
* A JS value that may be `undefined` is an `Option`; the `x || d`
  idiom (which substitutes `d` for `undefined` AND for `0` or `""`)
  is modelled by the `jsOr*` helpers.
* The external image-generation provider is a parameter
  `gen : String → ℕ → Except String Unit` giving the outcome of the
  n-th attempt for a given output path; the prompt-building and
  reference-image collaborators (external per the design) are function
  parameters as well.
* The filesystem is the list of paths of existing files; a successful
  provider call writes its output file.
* Within-batch concurrency is modelled by sequential composition of
  the batch's jobs: each job reads and writes only its own output
  path, so any interleaving is observationally equivalent for the
  properties stated here.
-/

/-- JS `v || d` on an optional number: `undefined` and `0` are falsy. -/
def jsOrQ (v : Option ℚ) (d : ℚ) : ℚ :=
  match v with
  | none => d
  | some x => if x = 0 then d else x

/-- JS `v || d` on an optional string: `undefined` and `""` are falsy. -/
def jsOrStr (v : Option String) (d : String) : String :=
  match v with
  | none => d
  | some s => if s = "" then d else s

/-- JS `v || d` on an optional natural number: `undefined` and `0` are falsy. -/
def jsOrNat (v : Option ℕ) (d : ℕ) : ℕ :=
  match v with
  | none => d
  | some n => if n = 0 then d else n

/-- JS truncation toward zero, as used by the `%` operator. -/
def jsTrunc (x : ℚ) : ℤ :=
  if 0 ≤ x then ⌊x⌋ else ⌈x⌉

/-- JS remainder `a % b` on numbers (truncated division); junk value `0`
when `b = 0` (JS would give `NaN`, never consulted by the code here). -/
def jsModQ (a b : ℚ) : ℚ :=
  if b = 0 then 0 else a - b * (jsTrunc (a / b) : ℚ)

/-- JS `Math.round`: round half toward positive infinity. -/
def jsRoundInt (x : ℚ) : ℤ :=
  ⌊x + 1 / 2⌋

/-- JS `Math.round` kept as a number. -/
def jsRound (x : ℚ) : ℚ :=
  (jsRoundInt x : ℚ)

/-- Value of the longest leading digit prefix of a character list;
`none` when there is no leading digit (JS `parseInt` gives `NaN`). -/
def digitsVal (cs : List Char) : Option ℕ :=
  let ds := cs.takeWhile (fun c => c.isDigit)
  if ds.isEmpty then none
  else some (ds.foldl (fun acc c => acc * 10 + (c.toNat - 48)) 0)

/-- JS `str.trim()` (structural implementation: drop whitespace from
both ends). -/
def jsTrim (s : String) : String :=
  String.mk (((s.toList.dropWhile Char.isWhitespace).reverse.dropWhile
    Char.isWhitespace).reverse)

/-- JS `parseInt(s, 10)`: skip whitespace, optional sign, longest digit
prefix; `none` models `NaN`. -/
def parseIntJS (s : String) : Option ℤ :=
  match (jsTrim s).toList with
  | '-' :: rest => (digitsVal rest).map (fun n => -(n : ℤ))
  | '+' :: rest => (digitsVal rest).map (fun n => (n : ℤ))
  | cs => (digitsVal cs).map (fun n => (n : ℤ))

/-- JS `str.split(sep)` for a one-character separator. -/
def jsSplitAux (sep : Char) : List Char → List Char → List String
  | acc, [] => [String.mk acc.reverse]
  | acc, c :: cs =>
    if c = sep then String.mk acc.reverse :: jsSplitAux sep [] cs
    else jsSplitAux sep (c :: acc) cs

/-- JS `str.split(sep)` for a one-character separator. -/
def jsSplit (s : String) (sep : Char) : List String :=
  jsSplitAux sep [] s.toList

/-- JS `str.includes(c)` for a one-character needle. -/
def jsIncludes (s : String) (c : Char) : Bool :=
  s.toList.contains c

/-- `[...new Set(xs)]`: de-duplicate keeping the first occurrence, in
insertion order. -/
def jsSetDedupAux {α : Type} [DecidableEq α] : List α → List α → List α
  | _, [] => []
  | seen, a :: l =>
    if a ∈ seen then jsSetDedupAux seen l
    else a :: jsSetDedupAux (a :: seen) l

/-- `[...new Set(xs)]`: de-duplicate keeping the first occurrence. -/
def jsSetDedup {α : Type} [DecidableEq α] (l : List α) : List α :=
  jsSetDedupAux [] l

/-- The list `start, start+1, ..., stop` produced by
`for (let i = start; i <= stop; i++)`. -/
def rangeListJS (start stop : ℤ) : List ℤ :=
  (List.range (stop + 1 - start).toNat).map (fun (k : ℕ) => start + (k : ℤ))

/-! ## Data model (`scripts/types.ts`) -/

/-- `PageSize` from `layout-parser.ts`. -/
structure PageSize where
  width : ℚ
  height : ℚ
deriving DecidableEq, Repr

/-- `GridPosition` from `types.ts`. -/
structure GridPosition where
  row : ℚ
  col : ℚ
deriving DecidableEq, Repr

/-- A grid specification `{rows, cols, gutter?}`; `gutter` is optional
on a page's explicit grid. -/
structure GridSpec where
  rows : ℚ
  cols : ℚ
  gutter : Option ℚ
deriving DecidableEq, Repr

/-- `PanelBounds`: the computed pixel rectangle. -/
structure PanelBounds where
  x : ℚ
  y : ℚ
  w : ℚ
  h : ℚ
deriving DecidableEq, Repr

/-- `PanelCharacter` from `types.ts`. -/
structure PanelCharacter where
  id : String
  expression : Option String
  angle : Option String
  action : Option String
deriving DecidableEq, Repr

/-- `PanelConfig` from `types.ts` (fields used by the verified core). -/
structure PanelConfig where
  id : String
  position : GridPosition
  rowspan : Option ℚ
  colspan : Option ℚ
  prompt : String
  characters : List PanelCharacter
  focus : Option String
  aspectRatio : Option String
deriving DecidableEq, Repr

/-- `LayoutConfig` from `types.ts`: a type tag, an optional explicit
grid, and the page's panels. -/
structure LayoutConfig where
  type : String
  grid : Option GridSpec
  panels : List PanelConfig
deriving DecidableEq, Repr

/-- `PageConfig` from `types.ts`. -/
structure PageConfig where
  id : String
  title : Option String
  layout : LayoutConfig
deriving DecidableEq, Repr

/-- `PageSettingsConfig` from `types.ts` (fields used here). -/
structure PageSettings where
  width : Option ℚ
  height : Option ℚ
  aspectRatio : String
  dpi : Option ℚ
deriving DecidableEq, Repr

/-- `CharacterConfig` from `types.ts` (identifier only; character
reference generation is an external collaborator). -/
structure CharacterConfig where
  id : String
  name : String
deriving DecidableEq, Repr

/-- `StyleConfig` from `types.ts` (fields used here). -/
structure StyleConfig where
  artStyle : String
  tone : String
deriving DecidableEq, Repr

/-- `FlexicomicConfig` from `types.ts` (fields used by the verified
core). -/
structure FlexicomicConfig where
  title : String
  style : StyleConfig
  pageSettings : PageSettings
  characters : List CharacterConfig
  pages : List PageConfig
deriving DecidableEq, Repr

/-! ## Grid geometry engine (`scripts/utils/layout-parser.ts`) -/

/-- `calculatePageSize` (`layout-parser.ts` lines 12-46): explicit
dimensions take precedence when both are truthy; otherwise the aspect
ratio string is parsed and the page size derived from the DPI. -/
def calculatePageSize (config : FlexicomicConfig) : Except String PageSize :=
  let ps := config.pageSettings
  if jsOrQ ps.width 0 ≠ 0 ∧ jsOrQ ps.height 0 ≠ 0 then
    .ok ⟨jsOrQ ps.width 0, jsOrQ ps.height 0⟩
  else
    let comps := jsSplit ps.aspectRatio ':'
    let w? := parseIntJS (comps.getD 0 "")
    let h? := parseIntJS (comps.getD 1 "")
    match w?, h? with
    | some w, some h =>
      if w ≤ 0 ∨ h ≤ 0 then .error ("Invalid aspect ratio: " ++ ps.aspectRatio)
      else
        let dpi := jsOrQ ps.dpi 300
        let baseSize := dpi * 10
        if w ≥ h then .ok ⟨baseSize, jsRound (baseSize * (h : ℚ) / (w : ℚ))⟩
        else .ok ⟨jsRound (baseSize * (w : ℚ) / (h : ℚ)), baseSize⟩
    | _, _ => .error ("Invalid aspect ratio: " ++ ps.aspectRatio)

/-- `calculatePanelBoundsCustom` (`layout-parser.ts` lines 72-90),
translated literally: `rowspan`, `colspan` default to `1` and `gutter`
to `10` via the JS `||` idiom. -/
def calculatePanelBoundsCustom (panel : PanelConfig) (grid : GridSpec)
    (pageSize : PageSize) : PanelBounds :=
  let rowspan := jsOrQ panel.rowspan 1
  let colspan := jsOrQ panel.colspan 1
  let gutter := jsOrQ grid.gutter 10
  let cellWidth := (pageSize.width - gutter * (grid.cols + 1)) / grid.cols
  let cellHeight := (pageSize.height - gutter * (grid.rows + 1)) / grid.rows
  { x := gutter + panel.position.col * (cellWidth + gutter)
    y := gutter + panel.position.row * (cellHeight + gutter)
    w := colspan * cellWidth + (colspan - 1) * gutter
    h := rowspan * cellHeight + (rowspan - 1) * gutter }

/-- `getLayoutGrid` (`layout-parser.ts` lines 92-111): the default-grid
lookup keyed by the layout type tag. -/
def getLayoutGrid (layoutType : String) (panelsCount : ℕ) : GridSpec :=
  if layoutType = "2x2-grid" then ⟨2, 2, some 10⟩
  else if layoutType = "cinematic" then ⟨3, 2, some 10⟩
  else if layoutType = "webtoon" then ⟨(panelsCount : ℚ), 1, some 5⟩
  else if layoutType = "dense" then ⟨3, 3, some 8⟩
  else if layoutType = "splash" then ⟨1, 1, some 0⟩
  else ⟨2, 2, some 10⟩

/-- The per-cell width of a grid on a page, as both the code and the
spec compute it (with the code's effective gutter). -/
def cellWidthOf (grid : GridSpec) (pageSize : PageSize) : ℚ :=
  (pageSize.width - jsOrQ grid.gutter 10 * (grid.cols + 1)) / grid.cols

/-- The effective gutter used by `calculatePanelBoundsCustom`. -/
def gutterOf (grid : GridSpec) : ℚ :=
  jsOrQ grid.gutter 10

/-- Written from the words of claim C1 (the spec's formulas, with
`gutter` defaulting to 10 only when absent and the spans defaulting to
1 only when absent), for comparison with the code. -/
def specPanelBoundsC1 (panel : PanelConfig) (grid : GridSpec)
    (pageSize : PageSize) : PanelBounds :=
  let rowspan := panel.rowspan.getD 1
  let colspan := panel.colspan.getD 1
  let gutter := grid.gutter.getD 10
  let cellWidth := (pageSize.width - gutter * (grid.cols + 1)) / grid.cols
  let cellHeight := (pageSize.height - gutter * (grid.rows + 1)) / grid.rows
  { x := gutter + panel.position.col * (cellWidth + gutter)
    y := gutter + panel.position.row * (cellHeight + gutter)
    w := colspan * cellWidth + (colspan - 1) * gutter
    h := rowspan * cellHeight + (rowspan - 1) * gutter }

/-- Written from the words of the amended claim C1: the spec's
formulas, with `gutter` defaulting to 10 when absent or zero and the
spans defaulting to 1 when absent or zero (the JS falsy cases). -/
def specPanelBoundsC1Amended (panel : PanelConfig) (grid : GridSpec)
    (pageSize : PageSize) : PanelBounds :=
  let rowspan := match panel.rowspan with | none => 1 | some r => if r = 0 then 1 else r
  let colspan := match panel.colspan with | none => 1 | some c => if c = 0 then 1 else c
  let gutter := match grid.gutter with | none => 10 | some g => if g = 0 then 10 else g
  let cellWidth := (pageSize.width - gutter * (grid.cols + 1)) / grid.cols
  let cellHeight := (pageSize.height - gutter * (grid.rows + 1)) / grid.rows
  { x := gutter + panel.position.col * (cellWidth + gutter)
    y := gutter + panel.position.row * (cellHeight + gutter)
    w := colspan * cellWidth + (colspan - 1) * gutter
    h := rowspan * cellHeight + (rowspan - 1) * gutter }

/-! ## Image generation adapter (`scripts/utils/image-gen-adapter.ts`) -/

/-- `ImageGenOptions` from `image-gen-adapter.ts`. -/
structure ImageGenOptions where
  prompt : String
  output : String
  ar : Option String
  quality : Option String
  provider : Option String
  refImages : Option (List String)
deriving DecidableEq, Repr

/-- The loop body of `callImageGenWithRetry` (`image-gen-adapter.ts`
lines 65-84): `attempt` is the current 0-based attempt index,
`remaining` the number of loop iterations left
(`maxRetries + 1 - attempt`), `lastError` the error of the previous
attempt (JS `null` initially). Returns the list of options passed to
`callImageGen`, one entry per provider call, and the outcome. -/
def retryFrom (gen : ℕ → Except String Unit) (options : ImageGenOptions)
    (lastError : Option String) :
    ℕ → ℕ → List ImageGenOptions × Except String Unit
  | _, 0 => ([], .error (lastError.getD ""))
  | attempt, remaining + 1 =>
    match gen attempt with
    | .ok _ => ([options], .ok ())
    | .error e =>
      let rest := retryFrom gen options (some e) (attempt + 1) remaining
      (options :: rest.1, rest.2)

/-- `callImageGenWithRetry` (`image-gen-adapter.ts` lines 65-84). The
external `callImageGen` body (process spawn / HTTP call) is the
parameter `gen`, indexed by attempt number. -/
def callImageGenWithRetry (gen : ℕ → Except String Unit)
    (options : ImageGenOptions) (maxRetries : ℕ) :
    List ImageGenOptions × Except String Unit :=
  retryFrom gen options none 0 (maxRetries + 1)

/-- Fuel bounding the depth of the Euclidean recursion in
`calculatePanelAspectRatio`; the JS original recurses without fuel and
terminates on the (rational) values that arise, and for natural-number
inputs the recursion depth is at most `b + 1`, well below this bound. -/
def gcdFuelFor (a b : ℚ) : ℕ :=
  a.num.natAbs + a.den + b.num.natAbs + b.den + 2

/-- The inner `gcd` closure of `calculatePanelAspectRatio`
(`image-gen-adapter.ts` lines 107-109): `b === 0 ? a : gcd(b, a % b)`. -/
def gcdJS : ℕ → ℚ → ℚ → ℚ
  | 0, a, _ => a
  | fuel + 1, a, b => if b = 0 then a else gcdJS fuel b (jsModQ a b)

/-- `calculatePanelAspectRatio` (`image-gen-adapter.ts` lines 103-116):
reduce `w:h` by the Euclidean divisor and format the rounded parts. -/
def calculatePanelAspectRatio (panelWidth panelHeight : ℚ) : String :=
  let divisor := gcdJS (gcdFuelFor panelWidth panelHeight) panelWidth panelHeight
  let w := jsRoundInt (panelWidth / divisor)
  let h := jsRoundInt (panelHeight / divisor)
  toString w ++ ":" ++ toString h

/-! ## Range validation (`scripts/validation.ts`) -/

/-- One comma-separated item of `validatePageRange`
(`validation.ts` lines 125-146): a hyphenated inclusive range or a
single page number; out-of-range indices are dropped, non-numeric
items raise. -/
def pageRangePart (totalPages : ℕ) (part : String) : Except String (List ℤ) :=
  let trimmed := jsTrim part
  if jsIncludes trimmed '-' then
    let nums := (jsSplit trimmed '-').map (fun s => parseIntJS (jsTrim s))
    match nums.getD 0 none, nums.getD 1 none with
    | some start, some stop =>
      .ok ((rangeListJS start stop).filter
        (fun i => decide (1 ≤ i) && decide (i ≤ (totalPages : ℤ))))
    | _, _ => .error ("Invalid page range: " ++ trimmed)
  else
    match parseIntJS trimmed with
    | some p =>
      .ok (if 1 ≤ p ∧ p ≤ (totalPages : ℤ) then [p] else [])
    | none => .error ("Invalid page number: " ++ trimmed)

/-- `validatePageRange` (`validation.ts` lines 122-149): collect the
items, de-duplicate via `Set`, and sort numerically ascending (the JS
`.sort((a, b) => a - b)` is modelled by an ascending sort). -/
def validatePageRange (range : String) (totalPages : ℕ) :
    Except String (List ℤ) := do
  let parts := jsSplit range ','
  let collected ← parts.foldlM (fun acc part => do
    let xs ← pageRangePart totalPages part
    pure (acc ++ xs)) ([] : List ℤ)
  pure (List.insertionSort (· ≤ ·) (jsSetDedup collected))

/-- One comma-separated item of the panel part of `validatePanelRange`
(`validation.ts` lines 166-193): in-range 1-based indices are mapped to
their panel's id, out-of-range indices dropped, non-numeric items
raise. -/
def panelRangePart (page : PageConfig) (part : String) :
    Except String (List String) :=
  let totalPanels := page.layout.panels.length
  let trimmed := jsTrim part
  if jsIncludes trimmed '-' then
    let nums := (jsSplit trimmed '-').map (fun s => parseIntJS (jsTrim s))
    match nums.getD 0 none, nums.getD 1 none with
    | some start, some stop =>
      .ok ((rangeListJS start stop).filterMap (fun i =>
        if 1 ≤ i ∧ i ≤ (totalPanels : ℤ) then
          (page.layout.panels.get? (i - 1).toNat).map (fun p => p.id)
        else none))
    | _, _ => .error ("Invalid panel range: " ++ trimmed)
  else
    match parseIntJS trimmed with
    | some idx =>
      .ok (if 1 ≤ idx ∧ idx ≤ (totalPanels : ℤ) then
        ((page.layout.panels.get? (idx - 1).toNat).map (fun p => p.id)).toList
      else [])
    | none => .error ("Invalid panel number: " ++ trimmed)

/-- `validatePanelRange` (`validation.ts` lines 151-196): split the
selector on `:`; a missing/empty panel part or an unknown page id
raises; otherwise collect panel ids and de-duplicate via `Set`
(without re-sorting). -/
def validatePanelRange (range : String) (pages : List PageConfig) :
    Except String (List String) :=
  let parts := jsSplit range ':'
  let pageId := parts.getD 0 ""
  let panelRange := parts.getD 1 ""
  if panelRange = "" then
    .error "Invalid panel range format. Expected: pageId:range (e.g., page1:1-3)"
  else
    match pages.find? (fun p => decide (p.id = pageId)) with
    | none => .error ("Page not found: " ++ pageId)
    | some page => do
      let collected ← (jsSplit panelRange ',').foldlM (fun acc part => do
        let xs ← panelRangePart page part
        pure (acc ++ xs)) ([] : List String)
      pure (jsSetDedup collected)

/-! ## Render job runner and generation controller (`scripts/parallel.ts`) -/

/-- `PanelToGenerate` from `parallel.ts`: one render job. -/
structure PanelToGenerate where
  page : PageConfig
  panel : PanelConfig
  pageIndex : ℤ
  panelIndex : ℕ
deriving DecidableEq, Repr

/-- `PromptBuildContext` from `prompt-builder.ts` (the prompt compositor
is an external collaborator; its functions are parameters below). -/
structure PromptBuildContext where
  config : FlexicomicConfig
  page : PageConfig
  panel : PanelConfig

/-- The deterministic output path
`path.join(outputDir, "panels", panelId + ".png")`. -/
def panelOutputPath (outputDir : String) (panel : PanelConfig) : String :=
  outputDir ++ "/panels/" ++ panel.id ++ ".png"

/-- Observable trace of one `generateSinglePanel` invocation. -/
structure RunnerTrace where
  providerCalls : List ImageGenOptions
  promptBuilt : Bool
deriving DecidableEq, Repr

/-- `generateSinglePanel` (`parallel.ts` lines 348-394): skip when the
output file exists; otherwise resolve the grid, compute bounds on the
fixed default canvas 1200 x 1600, pick the aspect ratio, build the
prompt and reference list (collaborator parameters `bp` and `refs`),
and invoke the provider with bounded retry. Returns the trace, the
resulting filesystem (a successful provider call writes the output
file), and the outcome. -/
def generateSinglePanel (gen : String → ℕ → Except String Unit)
    (bp : PromptBuildContext → String)
    (refs : PromptBuildContext → String → List String)
    (item : PanelToGenerate) (config : FlexicomicConfig)
    (outputDir : String) (provider : String) (fs : List String) :
    RunnerTrace × List String × Except String Unit :=
  let outputPath := panelOutputPath outputDir item.panel
  if outputPath ∈ fs then (⟨[], false⟩, fs, .ok ())
  else
    let grid := item.page.layout.grid.getD
      (getLayoutGrid item.page.layout.type item.page.layout.panels.length)
    let pageSize : PageSize := ⟨1200, 1600⟩
    let bounds := calculatePanelBoundsCustom item.panel grid pageSize
    let ar := jsOrStr item.panel.aspectRatio
      (calculatePanelAspectRatio bounds.w bounds.h)
    let ctx : PromptBuildContext := ⟨config, item.page, item.panel⟩
    let prompt := bp ctx
    let refImages := refs ctx outputDir
    let options : ImageGenOptions :=
      ⟨prompt, outputPath, some ar, some "2k", some provider,
        if refImages.length > 0 then some refImages else none⟩
    let r := callImageGenWithRetry (gen outputPath) options 2
    match r.2 with
    | .ok _ => (⟨r.1, true⟩, outputPath :: fs, .ok ())
    | .error e => (⟨r.1, true⟩, fs, .error e)

/-- Aggregate state of a controller run. `started` records the
sequential per-job status lines, `completed` the `onProgress` count of
the bounded-concurrency strategy, `warnings` the warning lines,
`providerCalls` the total number of provider invocations. -/
structure GenState where
  fs : List String
  completed : ℕ
  started : List String
  warnings : List String
  providerCalls : ℕ
deriving DecidableEq, Repr

/-- The warning line `generatePanelWithProgress` logs for a failed
job. -/
def failWarning (item : PanelToGenerate) (e : String) : String :=
  "Warning: Failed to generate " ++ item.panel.id ++ ": " ++ e

/-- `generatePanelWithProgress` (`parallel.ts` lines 332-346): run one
job, catch any failure as a warning, and call `onProgress` (increment
`completed`) on success and failure alike. Never raises. -/
def generatePanelWithProgress (gen : String → ℕ → Except String Unit)
    (bp : PromptBuildContext → String)
    (refs : PromptBuildContext → String → List String)
    (item : PanelToGenerate) (config : FlexicomicConfig)
    (outputDir : String) (provider : String) (st : GenState) : GenState :=
  let r := generateSinglePanel gen bp refs item config outputDir provider st.fs
  match r.2.2 with
  | .ok _ =>
    { st with
      fs := r.2.1
      completed := st.completed + 1
      providerCalls := st.providerCalls + r.1.providerCalls.length }
  | .error e =>
    { st with
      completed := st.completed + 1
      warnings := st.warnings ++ [failWarning item e]
      providerCalls := st.providerCalls + r.1.providerCalls.length }

/-- `generatePanelSequential` (`parallel.ts` lines 316-330): log a
status line per job, then await `generateSinglePanel` directly — there
is no try/catch, so a job failure aborts the loop and propagates. -/
def generatePanelSequential (gen : String → ℕ → Except String Unit)
    (bp : PromptBuildContext → String)
    (refs : PromptBuildContext → String → List String)
    (panels : List PanelToGenerate) (config : FlexicomicConfig)
    (outputDir : String) (provider : String) (st : GenState) :
    GenState × Except String Unit :=
  match panels with
  | [] => (st, .ok ())
  | item :: rest =>
    let st1 := { st with started := st.started ++ [item.panel.id] }
    let r := generateSinglePanel gen bp refs item config outputDir provider st1.fs
    match r.2.2 with
    | .ok _ =>
      generatePanelSequential gen bp refs rest config outputDir provider
        { st1 with
          fs := r.2.1
          providerCalls := st1.providerCalls + r.1.providerCalls.length }
    | .error e =>
      ({ st1 with providerCalls := st1.providerCalls + r.1.providerCalls.length },
        .error e)

/-- Consecutive batches `l.slice(i, i + k)` of the batching loop in
`generatePanelParallel`; the fuel argument is the list length, enough
for any `k ≥ 1`. -/
def batchesAux {α : Type} (k : ℕ) : ℕ → List α → List (List α)
  | 0, _ => []
  | _, [] => []
  | fuel + 1, l => l.take k :: batchesAux k fuel (l.drop k)

/-- The consecutive batches of size `k` of a list. -/
def batches {α : Type} (k : ℕ) (l : List α) : List (List α) :=
  batchesAux k l.length l

/-- One batch of `generatePanelParallel`: launch every job and wait for
all of them (`Promise.all`); each job is wrapped in
`generatePanelWithProgress`, which never rejects. Concurrent execution
is modelled by sequential composition (each job touches only its own
output path). -/
def runBatch (gen : String → ℕ → Except String Unit)
    (bp : PromptBuildContext → String)
    (refs : PromptBuildContext → String → List String)
    (config : FlexicomicConfig) (outputDir : String) (provider : String)
    (batch : List PanelToGenerate) (st : GenState) : GenState :=
  batch.foldl
    (fun s item => generatePanelWithProgress gen bp refs item config outputDir provider s)
    st

/-- `generatePanelParallel` (`parallel.ts` lines 287-314): clamp the
requested concurrency to `[1, 8]` (with `options.concurrency || 4` as
the requested value) and process the job list in consecutive batches,
waiting for each batch before starting the next. -/
def generatePanelParallel (gen : String → ℕ → Except String Unit)
    (bp : PromptBuildContext → String)
    (refs : PromptBuildContext → String → List String)
    (panels : List PanelToGenerate) (config : FlexicomicConfig)
    (outputDir : String) (concurrencyOpt : Option ℕ) (provider : String)
    (st : GenState) : GenState :=
  let concurrency := min (max 1 (jsOrNat concurrencyOpt 4)) 8
  (batches concurrency panels).foldl
    (fun s batch => runBatch gen bp refs config outputDir provider batch s)
    st

/-! ## Job collection and pipeline (`scripts/generate.ts`, `scripts/composite.ts`) -/

/-- The job-collection loop of `generateComic` (`generate.ts` lines
79-93): for each selected 1-based page index, skip indices with no
page, then take the page's panels in declared order, filtered by the
optional panel-id selection. -/
def collectPanels (config : FlexicomicConfig) (pagesToGenerate : List ℤ)
    (panelsToGenerate : Option (List String)) : List PanelToGenerate :=
  pagesToGenerate.foldl (fun acc pageIndex =>
    match (if 1 ≤ pageIndex then config.pages.get? (pageIndex - 1).toNat else none) with
    | none => acc
    | some page =>
      acc ++ page.layout.panels.enum.filterMap (fun pi =>
        match panelsToGenerate with
        | some sel =>
          if sel.contains pi.2.id then some ⟨page, pi.2, pageIndex, pi.1⟩ else none
        | none => some ⟨page, pi.2, pageIndex, pi.1⟩)) []

/-- `compositeSinglePage` (`composite.ts`): resolve the page size (this
is where `calculatePageSize` can raise), then render — the canvas /
ImageMagick rendering is an external collaborator; on success the page
file is written. Missing panel images are drawn as placeholders, never
an error. -/
def compositeSinglePage (page : PageConfig) (config : FlexicomicConfig)
    (outputDir : String) : Except String String :=
  (calculatePageSize config).map (fun _ => outputDir ++ "/pages/" ++ page.id ++ ".png")

/-- `compositePages` (`composite.ts`): iterate the selected pages,
skipping indices with no page; each `compositeSinglePage` call is
wrapped in try/catch, so a failure (including a page-size resolution
error) becomes a per-page warning. Returns the filesystem extended
with the written page files, and the warnings. -/
def compositePages (config : FlexicomicConfig) (outputDir : String)
    (pageIndices : Option (List ℤ)) (fs0 : List String) :
    List String × List String :=
  let pagesToProcess : List ℤ := match pageIndices with
    | some l => l
    | none => (List.range config.pages.length).map (fun (i : ℕ) => (i : ℤ) + 1)
  pagesToProcess.foldl (fun st (pageIndex : ℤ) =>
    match (if 1 ≤ pageIndex then config.pages.get? (pageIndex - 1).toNat else none) with
    | none => st
    | some page =>
      match compositeSinglePage page config outputDir with
      | .ok pageFile => (pageFile :: st.1, st.2)
      | .error e => (st.1, st.2 ++ ["Warning: Failed to compose " ++ page.id ++ ": " ++ e])) (fs0, [])

/-- The caller-facing options of `generateComic` used by the verified
phases. -/
structure GenerateOptionsModel where
  pages : Option String
  panels : Option String
  parallel : Bool
  concurrency : Option ℕ
  skipComposite : Bool
deriving DecidableEq, Repr

/-- Result of a completed `generateComic` run (job phase and
composition phase). -/
structure RunResult where
  state : GenState
  jobs : List PanelToGenerate
  compositeWarnings : List String
  finalFs : List String
deriving DecidableEq, Repr

/-- The default page selection of `generateComic`:
`config.pages.map((_, i) => i + 1)` (all pages, as 1-based indices). -/
def pagesAll (config : FlexicomicConfig) : List ℤ :=
  (List.range config.pages.length).map (fun (i : ℕ) => (i : ℤ) + 1)

/-- The panel-generation pipeline of `generateComic` (`generate.ts`
lines 27-148): validate the page/panel selections (fatal on error),
collect the jobs, run them sequentially or in bounded-concurrency
batches, then compose the affected pages. The provider identifier is
injected (`resolveProvider` reads ambient credentials, external to
this core), and the character-reference step is the external
character-reference collaborator, not modelled here. A sequential job
failure propagates out (there is no catch on that path); the
bounded-concurrency path never raises. -/
def generateComicModel (gen : String → ℕ → Except String Unit)
    (bp : PromptBuildContext → String)
    (refs : PromptBuildContext → String → List String)
    (config : FlexicomicConfig) (outputDir : String) (provider : String)
    (options : GenerateOptionsModel) (fs0 : List String) :
    Except String RunResult := do
  let pagesToGenerate ← match options.pages with
    | none => pure (pagesAll config)
    | some r => validatePageRange r config.pages.length
  let panelsToGenerate ← match options.panels with
    | none => pure (none : Option (List String))
    | some r => (validatePanelRange r config.pages).map some
  let jobs := collectPanels config pagesToGenerate panelsToGenerate
  if jobs.isEmpty then
    return ⟨⟨fs0, 0, [], [], 0⟩, jobs, [], fs0⟩
  let st0 : GenState := ⟨fs0, 0, [], [], 0⟩
  let st ←
    if options.parallel ∧ jobs.length > 1 then
      pure (generatePanelParallel gen bp refs jobs config outputDir
        options.concurrency provider st0)
    else
      match generatePanelSequential gen bp refs jobs config outputDir provider st0 with
      | (st1, .ok _) => pure st1
      | (_, .error e) => throw e
  if options.skipComposite then
    return ⟨st, jobs, [], st.fs⟩
  else
    let pagesToCompose := match panelsToGenerate with
      | none => pagesToGenerate
      | some sel => pagesToGenerate.filter (fun pageIndex =>
          match (if 1 ≤ pageIndex then config.pages.get? (pageIndex - 1).toNat else none) with
          | some page => page.layout.panels.any (fun p => sel.contains p.id)
          | none => false)
    let r := compositePages config outputDir (some pagesToCompose) st.fs
    return ⟨st, jobs, r.2, r.1⟩

/-! ## Helper lemmas -/

deriving instance DecidableEq for Except

/-- A job's provider eventually succeeds within the 3 attempts the
retry wrapper grants for an output path. -/
def jobSucceeds (gen : String → ℕ → Except String Unit) (p : String) : Prop :=
  ∃ i, i < 3 ∧ gen p i = .ok ()

/-! ## Proof-infrastructure definitions and concrete fixtures -/

/-- All jobs of a list, run through `generatePanelWithProgress` in
order; `runBatch` is exactly this on one batch, and the whole
bounded-concurrency run is this on the concatenation of its batches. -/
def runAll (gen : String → ℕ → Except String Unit)
    (bp : PromptBuildContext → String)
    (refs : PromptBuildContext → String → List String)
    (config : FlexicomicConfig) (outputDir : String) (provider : String)
    (items : List PanelToGenerate) (st : GenState) : GenState :=
  items.foldl
    (fun s item => generatePanelWithProgress gen bp refs item config outputDir provider s)
    st

def genOk : String → ℕ → Except String Unit := fun _ _ => .ok ()

def genLastBoom : ℕ → Except String Unit :=
  fun i => if i = 2 then .error "last" else .error "early"

def bp0 : PromptBuildContext → String := fun _ => "prompt"

def refs0 : PromptBuildContext → String → List String := fun _ _ => []

def optsW : ImageGenOptions := ⟨"p", "o", some "1:1", some "2k", some "google", none⟩

def pnl (i : String) : PanelConfig := ⟨i, ⟨0, 0⟩, none, none, "a panel", [], none, some "1:1"⟩

def pageFx : PageConfig := ⟨"pg1", none, ⟨"2x2-grid", none, [pnl "a", pnl "b", pnl "c"]⟩⟩

def cfgFx : FlexicomicConfig := ⟨"t", ⟨"manga", "neutral"⟩, ⟨none, none, "3:4", none⟩, [], [pageFx]⟩

def jobA : PanelToGenerate := ⟨pageFx, pnl "a", 1, 0⟩

def jobB : PanelToGenerate := ⟨pageFx, pnl "b", 1, 1⟩

def jobC : PanelToGenerate := ⟨pageFx, pnl "c", 1, 2⟩

def genBoom : String → ℕ → Except String Unit := fun _ _ => .error "boom"

def genBFails : String → ℕ → Except String Unit :=
  fun p _ => if p = panelOutputPath "out" (pnl "b") then .error "boom" else .ok ()


def pgA : PanelConfig := ⟨"a", ⟨0, 0⟩, none, none, "pa", [], none, none⟩

def pgB : PanelConfig := ⟨"b", ⟨0, 1⟩, none, none, "pb", [], none, none⟩

def pg1 : PageConfig := ⟨"p", none, ⟨"2x2-grid", none, [pgA, pgB]⟩⟩

def panelSpan2 : PanelConfig := ⟨"s", ⟨0, 0⟩, none, some 2, "", [], none, none⟩

/-- The 1-based declaration index of a panel id within a page: the
numeric ordering key of a panel selection entry. -/
def panelOrderKey (page : PageConfig) (id : String) : ℕ :=
  page.layout.panels.findIdx (fun p => p.id == id) + 1

/-- Written from the words of the amended claim C8: the aspect ratio
sent to the provider is the panel's explicit override when present and
non-empty, and the computed ratio otherwise. -/
def specAspectChoice (panel : PanelConfig) (computed : String) : String :=
  match panel.aspectRatio with
  | some s => if s = "" then computed else s
  | none => computed

def panelEmptyAR : PanelConfig := ⟨"e", ⟨0, 0⟩, none, none, "x", [], none, some ""⟩

def pageEmptyAR : PageConfig := ⟨"pe", none, ⟨"2x2-grid", none, [panelEmptyAR]⟩⟩

def jobEmptyAR : PanelToGenerate := ⟨pageEmptyAR, panelEmptyAR, 1, 0⟩

/-- Written from the words of claim C9: the aspect-ratio string is
malformed when either of its (first two) colon-separated components is
non-numeric, zero, or negative. -/
def malformedAspectRatioSpec (s : String) : Prop :=
  match parseIntJS ((jsSplit s ':').getD 0 ""), parseIntJS ((jsSplit s ':').getD 1 "") with
  | some w, some h => w ≤ 0 ∨ h ≤ 0
  | _, _ => True

def pageK : PageConfig := ⟨"pk", none, ⟨"2x2-grid", none, [pnl "k1", pnl "k2"]⟩⟩

def cfgBadAR : FlexicomicConfig :=
  ⟨"t", ⟨"manga", "neutral"⟩, ⟨none, none, "0:1", none⟩, [], [pageK]⟩

def optsC9 : GenerateOptionsModel := ⟨none, none, true, some 2, false⟩

/-! ## Lemmas and claim theorems -/

theorem retryFrom_cons_of_error (gen : ℕ → Except String Unit)
    (opts : ImageGenOptions) (le : Option String) (a r : ℕ) (e : String)
    (hg : gen a = .error e) :
    retryFrom gen opts le a (r + 1)
      = (opts :: (retryFrom gen opts (some e) (a + 1) r).1,
         (retryFrom gen opts (some e) (a + 1) r).2) := by
  rw [retryFrom, hg]

theorem retryFrom_ok_head (gen : ℕ → Except String Unit)
    (opts : ImageGenOptions) (le : Option String) (a r : ℕ) (u : Unit)
    (hg : gen a = .ok u) :
    retryFrom gen opts le a (r + 1) = ([opts], .ok ()) := by
  rw [retryFrom, hg]

theorem retryFrom_length_le (gen : ℕ → Except String Unit)
    (opts : ImageGenOptions) :
    ∀ (r : ℕ) (le : Option String) (a : ℕ),
      (retryFrom gen opts le a r).1.length ≤ r := by
  intro r
  induction r with
  | zero => intro le a; simp [retryFrom]
  | succ n ih =>
    intro le a
    cases hg : gen a with
    | ok u => rw [retryFrom_ok_head gen opts le a n u hg]; simp
    | error e =>
      rw [retryFrom_cons_of_error gen opts le a n e hg]
      simpa using ih (some e) (a + 1)

theorem retryFrom_mem (gen : ℕ → Except String Unit)
    (opts : ImageGenOptions) :
    ∀ (r : ℕ) (le : Option String) (a : ℕ) (c : ImageGenOptions),
      c ∈ (retryFrom gen opts le a r).1 → c = opts := by
  intro r
  induction r with
  | zero => intro le a c hc; simp [retryFrom] at hc
  | succ n ih =>
    intro le a c hc
    cases hg : gen a with
    | ok u => rw [retryFrom_ok_head gen opts le a n u hg] at hc; simpa using hc
    | error e =>
      rw [retryFrom_cons_of_error gen opts le a n e hg] at hc
      rcases List.mem_cons.mp hc with h | h
      · exact h
      · exact ih (some e) (a + 1) c h

theorem retryFrom_allFail (gen : ℕ → Except String Unit)
    (opts : ImageGenOptions) :
    ∀ (k : ℕ) (le : Option String) (a : ℕ),
      (∀ i, i < k + 1 → (gen (a + i)).isOk = false) →
      retryFrom gen opts le a (k + 1) = (List.replicate (k + 1) opts, gen (a + k)) := by
  intro k
  induction k with
  | zero =>
    intro le a hfail
    have h0 : (gen a).isOk = false := by simpa using hfail 0 (by omega)
    cases hg : gen a with
    | ok u => rw [hg] at h0; simp [Except.isOk, Except.toBool] at h0
    | error e =>
      rw [retryFrom_cons_of_error gen opts le a 0 e hg]
      simp [retryFrom, hg]
  | succ k ih =>
    intro le a hfail
    have h0 : (gen a).isOk = false := by simpa using hfail 0 (by omega)
    cases hg : gen a with
    | ok u => rw [hg] at h0; simp [Except.isOk, Except.toBool] at h0
    | error e =>
      rw [retryFrom_cons_of_error gen opts le a (k + 1) e hg]
      have step := ih (some e) (a + 1) (by
        intro i hi
        have := hfail (i + 1) (by omega)
        simpa [Nat.add_assoc, Nat.add_comm, Nat.add_left_comm] using this)
      rw [step]
      have harith : a + 1 + k = a + (k + 1) := by omega
      simp [List.replicate_succ, harith]

theorem retryFrom_ok_of_exists (gen : ℕ → Except String Unit)
    (opts : ImageGenOptions) :
    ∀ (r : ℕ) (le : Option String) (a : ℕ),
      (∃ i, i < r ∧ gen (a + i) = .ok ()) →
      (retryFrom gen opts le a r).2 = .ok () := by
  intro r
  induction r with
  | zero => intro le a h; rcases h with ⟨i, hi, _⟩; omega
  | succ n ih =>
    intro le a h
    cases hg : gen a with
    | ok u => rw [retryFrom_ok_head gen opts le a n u hg]
    | error e =>
      rw [retryFrom_cons_of_error gen opts le a n e hg]
      obtain ⟨i, hir, hok⟩ := h
      cases i with
      | zero => rw [Nat.add_zero] at hok; rw [hok] at hg; cases hg
      | succ j =>
        refine ih (some e) (a + 1) ⟨j, by omega, ?_⟩
        simpa [Nat.add_assoc, Nat.add_comm, Nat.add_left_comm] using hok

theorem retryFrom_firstOk (gen : ℕ → Except String Unit)
    (opts : ImageGenOptions) :
    ∀ (k : ℕ) (r : ℕ) (le : Option String) (a : ℕ), k < r →
      (∀ i, i < k → (gen (a + i)).isOk = false) →
      gen (a + k) = .ok () →
      retryFrom gen opts le a r = (List.replicate (k + 1) opts, .ok ()) := by
  intro k
  induction k with
  | zero =>
    intro r le a hr _ hok
    cases r with
    | zero => omega
    | succ n =>
      rw [Nat.add_zero] at hok
      rw [retryFrom_ok_head gen opts le a n () hok]
      simp
  | succ j ih =>
    intro r le a hr hfail hok
    cases r with
    | zero => omega
    | succ n =>
      have h0 : (gen a).isOk = false := by simpa using hfail 0 (by omega)
      cases hg : gen a with
      | ok u => rw [hg] at h0; simp [Except.isOk, Except.toBool] at h0
      | error e =>
        rw [retryFrom_cons_of_error gen opts le a n e hg]
        have step : retryFrom gen opts (some e) (a + 1) n
            = (List.replicate (j + 1) opts, .ok ()) := by
          refine ih n (some e) (a + 1) (by omega) ?_ ?_
          · intro i hi
            have := hfail (i + 1) (by omega)
            simpa [Nat.add_assoc, Nat.add_comm, Nat.add_left_comm] using this
          · simpa [Nat.add_assoc, Nat.add_comm, Nat.add_left_comm] using hok
        rw [step]
        simp [List.replicate_succ]

theorem gsp_skip (gen : String → ℕ → Except String Unit)
    (bp : PromptBuildContext → String)
    (refs : PromptBuildContext → String → List String)
    (item : PanelToGenerate) (config : FlexicomicConfig)
    (outputDir provider : String) (fs : List String)
    (h : panelOutputPath outputDir item.panel ∈ fs) :
    generateSinglePanel gen bp refs item config outputDir provider fs
      = (⟨[], false⟩, fs, .ok ()) := by
  simp [generateSinglePanel, h]

theorem gsp_fs_or (gen : String → ℕ → Except String Unit)
    (bp : PromptBuildContext → String)
    (refs : PromptBuildContext → String → List String)
    (item : PanelToGenerate) (config : FlexicomicConfig)
    (outputDir provider : String) (fs : List String) :
    (generateSinglePanel gen bp refs item config outputDir provider fs).2.1 = fs ∨
    (generateSinglePanel gen bp refs item config outputDir provider fs).2.1
      = panelOutputPath outputDir item.panel :: fs := by
  by_cases h : panelOutputPath outputDir item.panel ∈ fs
  · left; simp [generateSinglePanel, h]
  · simp only [generateSinglePanel, if_neg h]
    split
    · right; rfl
    · left; rfl

theorem gsp_fs_subset (gen : String → ℕ → Except String Unit)
    (bp : PromptBuildContext → String)
    (refs : PromptBuildContext → String → List String)
    (item : PanelToGenerate) (config : FlexicomicConfig)
    (outputDir provider : String) (fs : List String) :
    fs ⊆ (generateSinglePanel gen bp refs item config outputDir provider fs).2.1 := by
  rcases gsp_fs_or gen bp refs item config outputDir provider fs with h | h
  · rw [h]; exact fun x hx => hx
  · rw [h]; exact List.subset_cons_self _ _

theorem gsp_ok_mem (gen : String → ℕ → Except String Unit)
    (bp : PromptBuildContext → String)
    (refs : PromptBuildContext → String → List String)
    (item : PanelToGenerate) (config : FlexicomicConfig)
    (outputDir provider : String) (fs : List String)
    (h : (generateSinglePanel gen bp refs item config outputDir provider fs).2.2 = .ok ()) :
    panelOutputPath outputDir item.panel
      ∈ (generateSinglePanel gen bp refs item config outputDir provider fs).2.1 := by
  by_cases hm : panelOutputPath outputDir item.panel ∈ fs
  · rw [gsp_skip gen bp refs item config outputDir provider fs hm]
    exact hm
  · simp only [generateSinglePanel, if_neg hm] at h ⊢
    split at h
    · rename_i heq
      simp only [heq]
      exact List.mem_cons_self _ _
    · simp at h

theorem gsp_error_fs (gen : String → ℕ → Except String Unit)
    (bp : PromptBuildContext → String)
    (refs : PromptBuildContext → String → List String)
    (item : PanelToGenerate) (config : FlexicomicConfig)
    (outputDir provider : String) (fs : List String) (e : String)
    (h : (generateSinglePanel gen bp refs item config outputDir provider fs).2.2 = .error e) :
    (generateSinglePanel gen bp refs item config outputDir provider fs).2.1 = fs := by
  by_cases hm : panelOutputPath outputDir item.panel ∈ fs
  · rw [gsp_skip gen bp refs item config outputDir provider fs hm]
  · simp only [generateSinglePanel, if_neg hm] at h ⊢
    split at h
    · simp at h
    · rename_i heq
      simp only [heq]

theorem gsp_ok_of_succeeds (gen : String → ℕ → Except String Unit)
    (bp : PromptBuildContext → String)
    (refs : PromptBuildContext → String → List String)
    (item : PanelToGenerate) (config : FlexicomicConfig)
    (outputDir provider : String) (fs : List String)
    (hm : panelOutputPath outputDir item.panel ∉ fs)
    (hs : jobSucceeds gen (panelOutputPath outputDir item.panel)) :
    (generateSinglePanel gen bp refs item config outputDir provider fs).2.2 = .ok () := by
  obtain ⟨i, hi, hok⟩ := hs
  have hretry : ∀ opts : ImageGenOptions,
      (callImageGenWithRetry (gen (panelOutputPath outputDir item.panel)) opts 2).2 = .ok () := by
    intro opts
    refine retryFrom_ok_of_exists _ opts 3 none 0 ⟨i, hi, ?_⟩
    simpa using hok
  simp only [generateSinglePanel, if_neg hm]
  split
  · rfl
  · rename_i heq
    rw [hretry _] at heq
    cases heq

theorem gsp_calls_le (gen : String → ℕ → Except String Unit)
    (bp : PromptBuildContext → String)
    (refs : PromptBuildContext → String → List String)
    (item : PanelToGenerate) (config : FlexicomicConfig)
    (outputDir provider : String) (fs : List String) :
    (generateSinglePanel gen bp refs item config outputDir provider fs).1.providerCalls.length ≤ 3 := by
  by_cases hm : panelOutputPath outputDir item.panel ∈ fs
  · rw [gsp_skip gen bp refs item config outputDir provider fs hm]
    simp
  · simp only [generateSinglePanel, if_neg hm]
    split
    · exact retryFrom_length_le _ _ 3 none 0
    · exact retryFrom_length_le _ _ 3 none 0

theorem gsp_calls_ar (gen : String → ℕ → Except String Unit)
    (bp : PromptBuildContext → String)
    (refs : PromptBuildContext → String → List String)
    (item : PanelToGenerate) (config : FlexicomicConfig)
    (outputDir provider : String) (fs : List String)
    (hm : panelOutputPath outputDir item.panel ∉ fs) :
    ∀ c ∈ (generateSinglePanel gen bp refs item config outputDir provider fs).1.providerCalls,
      c.ar = some (jsOrStr item.panel.aspectRatio
        (calculatePanelAspectRatio
          (calculatePanelBoundsCustom item.panel
            (item.page.layout.grid.getD
              (getLayoutGrid item.page.layout.type item.page.layout.panels.length))
            ⟨1200, 1600⟩).w
          (calculatePanelBoundsCustom item.panel
            (item.page.layout.grid.getD
              (getLayoutGrid item.page.layout.type item.page.layout.panels.length))
            ⟨1200, 1600⟩).h)) := by
  intro c hc
  simp only [generateSinglePanel, if_neg hm] at hc
  have hmem : ∀ opts : ImageGenOptions,
      c ∈ (callImageGenWithRetry (gen (panelOutputPath outputDir item.panel)) opts 2).1 → c = opts :=
    fun opts h => retryFrom_mem _ opts 3 none 0 c h
  split at hc
  · have := hmem _ hc
    rw [this]
  · have := hmem _ hc
    rw [this]

theorem gsp_allFail (gen : String → ℕ → Except String Unit)
    (bp : PromptBuildContext → String)
    (refs : PromptBuildContext → String → List String)
    (item : PanelToGenerate) (config : FlexicomicConfig)
    (outputDir provider : String) (fs : List String)
    (hm : panelOutputPath outputDir item.panel ∉ fs)
    (hfail : ∀ i, i < 3 → ((gen (panelOutputPath outputDir item.panel)) i).isOk = false) :
    ∃ e, gen (panelOutputPath outputDir item.panel) 2 = .error e ∧
      (generateSinglePanel gen bp refs item config outputDir provider fs).2 = (fs, .error e) ∧
      (generateSinglePanel gen bp refs item config outputDir provider fs).1.providerCalls.length = 3 := by
  have h2 : (gen (panelOutputPath outputDir item.panel) 2).isOk = false := hfail 2 (by omega)
  cases hg : gen (panelOutputPath outputDir item.panel) 2 with
  | ok u => rw [hg] at h2; simp [Except.isOk, Except.toBool] at h2
  | error e =>
    refine ⟨e, rfl, ?_⟩
    have hretry : ∀ opts : ImageGenOptions,
        callImageGenWithRetry (gen (panelOutputPath outputDir item.panel)) opts 2
          = (List.replicate 3 opts, .error e) := by
      intro opts
      have h3 := retryFrom_allFail (gen (panelOutputPath outputDir item.panel)) opts 2 none 0
        (by intro i hi; simpa using hfail i hi)
      unfold callImageGenWithRetry
      rw [show (2 : ℕ) + 1 = 3 from rfl] at h3
      rw [h3]
      simp [hg]
    simp only [generateSinglePanel, if_neg hm]
    split
    · rename_i heq
      rw [hretry _] at heq
      cases heq
    · rename_i e' heq
      rw [hretry _] at heq
      cases heq
      constructor
      · rfl
      · rw [hretry _]
        simp

theorem gpwp_fs_eq (gen : String → ℕ → Except String Unit)
    (bp : PromptBuildContext → String)
    (refs : PromptBuildContext → String → List String)
    (item : PanelToGenerate) (config : FlexicomicConfig)
    (outputDir provider : String) (st : GenState) :
    (generatePanelWithProgress gen bp refs item config outputDir provider st).fs
      = (generateSinglePanel gen bp refs item config outputDir provider st.fs).2.1 := by
  simp only [generatePanelWithProgress]
  split
  · rfl
  · rename_i e heq
    exact (gsp_error_fs gen bp refs item config outputDir provider st.fs e heq).symm

theorem gpwp_completed (gen : String → ℕ → Except String Unit)
    (bp : PromptBuildContext → String)
    (refs : PromptBuildContext → String → List String)
    (item : PanelToGenerate) (config : FlexicomicConfig)
    (outputDir provider : String) (st : GenState) :
    (generatePanelWithProgress gen bp refs item config outputDir provider st).completed
      = st.completed + 1 := by
  simp only [generatePanelWithProgress]
  split
  · rfl
  · rfl

theorem gpwp_warnings_or (gen : String → ℕ → Except String Unit)
    (bp : PromptBuildContext → String)
    (refs : PromptBuildContext → String → List String)
    (item : PanelToGenerate) (config : FlexicomicConfig)
    (outputDir provider : String) (st : GenState) :
    (generatePanelWithProgress gen bp refs item config outputDir provider st).warnings
        = st.warnings ∨
    ∃ e, (generatePanelWithProgress gen bp refs item config outputDir provider st).warnings
        = st.warnings ++ [failWarning item e] := by
  simp only [generatePanelWithProgress]
  split
  · left; rfl
  · rename_i e _
    right; exact ⟨e, rfl⟩

theorem gpwp_fs_mono (gen : String → ℕ → Except String Unit)
    (bp : PromptBuildContext → String)
    (refs : PromptBuildContext → String → List String)
    (item : PanelToGenerate) (config : FlexicomicConfig)
    (outputDir provider : String) (st : GenState) :
    st.fs ⊆ (generatePanelWithProgress gen bp refs item config outputDir provider st).fs := by
  rw [gpwp_fs_eq]
  exact gsp_fs_subset gen bp refs item config outputDir provider st.fs

theorem gpwp_out_mem (gen : String → ℕ → Except String Unit)
    (bp : PromptBuildContext → String)
    (refs : PromptBuildContext → String → List String)
    (item : PanelToGenerate) (config : FlexicomicConfig)
    (outputDir provider : String) (st : GenState)
    (h : panelOutputPath outputDir item.panel ∈ st.fs ∨
      jobSucceeds gen (panelOutputPath outputDir item.panel)) :
    panelOutputPath outputDir item.panel
      ∈ (generatePanelWithProgress gen bp refs item config outputDir provider st).fs := by
  rcases h with h | h
  · exact gpwp_fs_mono gen bp refs item config outputDir provider st h
  · by_cases hm : panelOutputPath outputDir item.panel ∈ st.fs
    · exact gpwp_fs_mono gen bp refs item config outputDir provider st hm
    · rw [gpwp_fs_eq]
      exact gsp_ok_mem gen bp refs item config outputDir provider st.fs
        (gsp_ok_of_succeeds gen bp refs item config outputDir provider st.fs hm h)

theorem gpwp_warn (gen : String → ℕ → Except String Unit)
    (bp : PromptBuildContext → String)
    (refs : PromptBuildContext → String → List String)
    (item : PanelToGenerate) (config : FlexicomicConfig)
    (outputDir provider : String) (st : GenState)
    (h : panelOutputPath outputDir item.panel
      ∉ (generatePanelWithProgress gen bp refs item config outputDir provider st).fs) :
    ∃ e, failWarning item e
      ∈ (generatePanelWithProgress gen bp refs item config outputDir provider st).warnings := by
  have hm : panelOutputPath outputDir item.panel ∉ st.fs := by
    intro hmem
    exact h (gpwp_fs_mono gen bp refs item config outputDir provider st hmem)
  have hfsrw := gpwp_fs_eq gen bp refs item config outputDir provider st
  simp only [generatePanelWithProgress] at h ⊢
  split at h
  · rename_i heq
    exfalso
    apply h
    exact gsp_ok_mem gen bp refs item config outputDir provider st.fs heq
  · rename_i e heq
    exact ⟨e, by simp⟩

theorem runAll_cons (gen : String → ℕ → Except String Unit)
    (bp : PromptBuildContext → String)
    (refs : PromptBuildContext → String → List String)
    (config : FlexicomicConfig) (outputDir provider : String)
    (item : PanelToGenerate) (tl : List PanelToGenerate) (st : GenState) :
    runAll gen bp refs config outputDir provider (item :: tl) st
      = runAll gen bp refs config outputDir provider tl
          (generatePanelWithProgress gen bp refs item config outputDir provider st) := rfl

theorem runAll_append (gen : String → ℕ → Except String Unit)
    (bp : PromptBuildContext → String)
    (refs : PromptBuildContext → String → List String)
    (config : FlexicomicConfig) (outputDir provider : String)
    (l1 l2 : List PanelToGenerate) (st : GenState) :
    runAll gen bp refs config outputDir provider (l1 ++ l2) st
      = runAll gen bp refs config outputDir provider l2
          (runAll gen bp refs config outputDir provider l1 st) :=
  List.foldl_append _ _ _ _

theorem runAll_completed (gen : String → ℕ → Except String Unit)
    (bp : PromptBuildContext → String)
    (refs : PromptBuildContext → String → List String)
    (config : FlexicomicConfig) (outputDir provider : String) :
    ∀ (items : List PanelToGenerate) (st : GenState),
      (runAll gen bp refs config outputDir provider items st).completed
        = st.completed + items.length := by
  intro items
  induction items with
  | nil => intro st; simp [runAll]
  | cons hd tl ih =>
    intro st
    rw [runAll_cons, ih, gpwp_completed]
    simp
    omega

theorem runAll_fs_mono (gen : String → ℕ → Except String Unit)
    (bp : PromptBuildContext → String)
    (refs : PromptBuildContext → String → List String)
    (config : FlexicomicConfig) (outputDir provider : String) :
    ∀ (items : List PanelToGenerate) (st : GenState),
      st.fs ⊆ (runAll gen bp refs config outputDir provider items st).fs := by
  intro items
  induction items with
  | nil => intro st; exact fun x hx => hx
  | cons hd tl ih =>
    intro st
    rw [runAll_cons]
    exact fun x hx =>
      ih _ (gpwp_fs_mono gen bp refs hd config outputDir provider st hx)

theorem runAll_warnings_mono (gen : String → ℕ → Except String Unit)
    (bp : PromptBuildContext → String)
    (refs : PromptBuildContext → String → List String)
    (config : FlexicomicConfig) (outputDir provider : String) :
    ∀ (items : List PanelToGenerate) (st : GenState) (w : String),
      w ∈ st.warnings →
      w ∈ (runAll gen bp refs config outputDir provider items st).warnings := by
  intro items
  induction items with
  | nil => intro st w hw; exact hw
  | cons hd tl ih =>
    intro st w hw
    rw [runAll_cons]
    refine ih _ w ?_
    rcases gpwp_warnings_or gen bp refs hd config outputDir provider st with h | ⟨e, h⟩
    · rw [h]; exact hw
    · rw [h]; exact List.mem_append_left _ hw

theorem runAll_out_mem (gen : String → ℕ → Except String Unit)
    (bp : PromptBuildContext → String)
    (refs : PromptBuildContext → String → List String)
    (config : FlexicomicConfig) (outputDir provider : String) :
    ∀ (items : List PanelToGenerate) (st : GenState) (item : PanelToGenerate),
      item ∈ items →
      (panelOutputPath outputDir item.panel ∈ st.fs ∨
        jobSucceeds gen (panelOutputPath outputDir item.panel)) →
      panelOutputPath outputDir item.panel
        ∈ (runAll gen bp refs config outputDir provider items st).fs := by
  intro items
  induction items with
  | nil => intro st item h; simp at h
  | cons hd tl ih =>
    intro st item hmem hsucc
    rw [runAll_cons]
    rcases List.mem_cons.mp hmem with heq | htl
    · subst heq
      exact runAll_fs_mono gen bp refs config outputDir provider tl _
        (gpwp_out_mem gen bp refs item config outputDir provider st hsucc)
    · refine ih _ item htl ?_
      rcases hsucc with h | h
      · exact Or.inl (gpwp_fs_mono gen bp refs hd config outputDir provider st h)
      · exact Or.inr h

theorem runAll_warn (gen : String → ℕ → Except String Unit)
    (bp : PromptBuildContext → String)
    (refs : PromptBuildContext → String → List String)
    (config : FlexicomicConfig) (outputDir provider : String) :
    ∀ (items : List PanelToGenerate) (st : GenState) (item : PanelToGenerate),
      item ∈ items →
      panelOutputPath outputDir item.panel
        ∉ (runAll gen bp refs config outputDir provider items st).fs →
      ∃ e, failWarning item e
        ∈ (runAll gen bp refs config outputDir provider items st).warnings := by
  intro items
  induction items with
  | nil => intro st item h; simp at h
  | cons hd tl ih =>
    intro st item hmem hout
    rw [runAll_cons] at hout ⊢
    rcases List.mem_cons.mp hmem with heq | htl
    · subst heq
      have hmid : panelOutputPath outputDir item.panel
          ∉ (generatePanelWithProgress gen bp refs item config outputDir provider st).fs := by
        intro hmem2
        exact hout (runAll_fs_mono gen bp refs config outputDir provider tl _ hmem2)
      obtain ⟨e, he⟩ := gpwp_warn gen bp refs item config outputDir provider st hmid
      exact ⟨e, runAll_warnings_mono gen bp refs config outputDir provider tl _ _ he⟩
    · exact ih _ item htl hout

theorem batchesAux_join {α : Type} (k : ℕ) (hk : 1 ≤ k) :
    ∀ (fuel : ℕ) (l : List α), l.length ≤ fuel →
      (batchesAux k fuel l).flatten = l := by
  intro fuel
  induction fuel with
  | zero =>
    intro l hl
    have : l = [] := List.eq_nil_of_length_eq_zero (by omega)
    subst this
    simp [batchesAux]
  | succ n ih =>
    intro l hl
    cases l with
    | nil => simp [batchesAux]
    | cons c cs =>
      rw [show batchesAux k (n + 1) (c :: cs)
          = (c :: cs).take k :: batchesAux k n ((c :: cs).drop k) from rfl]
      rw [List.flatten_cons]
      rw [ih ((c :: cs).drop k) (by
        have hdl : ((c :: cs).drop k).length = (c :: cs).length - k := List.length_drop _ _
        have : (c :: cs).length ≤ n + 1 := hl
        omega)]
      exact List.take_append_drop k (c :: cs)

theorem batches_join {α : Type} (k : ℕ) (hk : 1 ≤ k) (l : List α) :
    (batches k l).flatten = l :=
  batchesAux_join k hk l.length l (le_refl _)

theorem foldl_runBatch_join (gen : String → ℕ → Except String Unit)
    (bp : PromptBuildContext → String)
    (refs : PromptBuildContext → String → List String)
    (config : FlexicomicConfig) (outputDir provider : String) :
    ∀ (L : List (List PanelToGenerate)) (st : GenState),
      L.foldl (fun s batch => runBatch gen bp refs config outputDir provider batch s) st
        = runAll gen bp refs config outputDir provider L.flatten st := by
  intro L
  induction L with
  | nil => intro st; simp [runAll]
  | cons hd tl ih =>
    intro st
    rw [List.foldl_cons, ih, List.flatten_cons, runAll_append]
    rfl

theorem parallel_eq_runAll (gen : String → ℕ → Except String Unit)
    (bp : PromptBuildContext → String)
    (refs : PromptBuildContext → String → List String)
    (panels : List PanelToGenerate) (config : FlexicomicConfig)
    (outputDir : String) (concurrencyOpt : Option ℕ) (provider : String)
    (st : GenState) :
    generatePanelParallel gen bp refs panels config outputDir concurrencyOpt provider st
      = runAll gen bp refs config outputDir provider panels st := by
  unfold generatePanelParallel
  rw [foldl_runBatch_join]
  rw [batches_join _ (by omega) panels]

theorem seq_error_head (gen : String → ℕ → Except String Unit)
    (bp : PromptBuildContext → String)
    (refs : PromptBuildContext → String → List String)
    (item : PanelToGenerate) (rest : List PanelToGenerate)
    (config : FlexicomicConfig) (outputDir provider : String) (st : GenState)
    (hm : panelOutputPath outputDir item.panel ∉ st.fs)
    (hfail : ∀ i, i < 3 → ((gen (panelOutputPath outputDir item.panel)) i).isOk = false) :
    ∃ e, (generatePanelSequential gen bp refs (item :: rest) config outputDir provider st).2
        = .error e ∧
      (generatePanelSequential gen bp refs (item :: rest) config outputDir provider st).1.started
        = st.started ++ [item.panel.id] := by
  obtain ⟨e, hg, hpair, hlen⟩ :=
    gsp_allFail gen bp refs item config outputDir provider st.fs hm hfail
  have hscr : (generateSinglePanel gen bp refs item config outputDir provider st.fs).2.2
      = .error e := by rw [hpair]
  refine ⟨e, ?_, ?_⟩ <;>
    simp only [generatePanelSequential, hscr]


/-- C2: if the target file `<outputRoot>/panels/<panelId>.png` already
exists, `generateSinglePanel` returns immediately with no provider
call, no prompt build and no file write, leaving the filesystem
unchanged; consequently, after any successful run, running the job
again performs zero provider calls. -/
theorem C2_idempotent_skip (gen : String → ℕ → Except String Unit)
    (bp : PromptBuildContext → String)
    (refs : PromptBuildContext → String → List String)
    (item : PanelToGenerate) (config : FlexicomicConfig)
    (outputDir provider : String) :
    (∀ fs, panelOutputPath outputDir item.panel ∈ fs →
      generateSinglePanel gen bp refs item config outputDir provider fs
        = (⟨[], false⟩, fs, .ok ())) ∧
    (∀ fs, (generateSinglePanel gen bp refs item config outputDir provider fs).2.2 = .ok () →
      (generateSinglePanel gen bp refs item config outputDir provider
        ((generateSinglePanel gen bp refs item config outputDir provider fs).2.1)).1.providerCalls
          = []) := by
  constructor
  · intro fs h
    exact gsp_skip gen bp refs item config outputDir provider fs h
  · intro fs h
    have hmem := gsp_ok_mem gen bp refs item config outputDir provider fs h
    rw [gsp_skip gen bp refs item config outputDir provider _ hmem]

theorem C2_idempotent_skip_witness :
    generateSinglePanel genOk bp0 refs0 jobA cfgFx "out" "google"
        [panelOutputPath "out" (pnl "a")]
      = (⟨[], false⟩, [panelOutputPath "out" (pnl "a")], .ok ()) :=
  (C2_idempotent_skip genOk bp0 refs0 jobA cfgFx "out" "google").1
    [panelOutputPath "out" (pnl "a")] (by decide)

/-- C3: `callImageGenWithRetry` with the fixed maximum of 2 additional
attempts never issues more than 3 provider calls, passes the identical
options record on every call, returns the error of the last (third)
attempt when every attempt fails, and returns immediately after the
first successful attempt. -/
theorem C3_retry_bound (gen : ℕ → Except String Unit) (options : ImageGenOptions) :
    (callImageGenWithRetry gen options 2).1.length ≤ 3 ∧
    (∀ c ∈ (callImageGenWithRetry gen options 2).1, c = options) ∧
    ((∀ i, i < 3 → (gen i).isOk = false) →
      callImageGenWithRetry gen options 2 = (List.replicate 3 options, gen 2)) ∧
    (∀ k, k < 3 → (∀ i, i < k → (gen i).isOk = false) → gen k = .ok () →
      callImageGenWithRetry gen options 2 = (List.replicate (k + 1) options, .ok ())) := by
  refine ⟨retryFrom_length_le gen options 3 none 0,
    fun c hc => retryFrom_mem gen options 3 none 0 c hc, ?_, ?_⟩
  · intro h
    have := retryFrom_allFail gen options 2 none 0 (by intro i hi; simpa using h i hi)
    unfold callImageGenWithRetry
    rw [show (2 : ℕ) + 1 = 3 from rfl] at this
    simpa using this
  · intro k hk hfail hok
    have := retryFrom_firstOk gen options k 3 none 0 hk
      (by intro i hi; simpa using hfail i hi) (by simpa using hok)
    exact this

theorem C3_retry_bound_witness :
    callImageGenWithRetry genLastBoom optsW 2
      = (List.replicate 3 optsW, .error "last") := by
  have h := (C3_retry_bound genLastBoom optsW).2.2.1 (by decide)
  rw [h]
  decide

/-- C4 (amended): under bounded-concurrency execution a per-job
failure is caught at the controller boundary — the run is total and
every scheduled job is counted as processed; under sequential
execution there is no such catch: a job whose provider fails on all
attempts makes `generatePanelSequential` raise, and no later job is
started. The original claim (both strategies catch) is refuted by
`C4_counterexample`. -/
theorem C4_failure_propagation (gen : String → ℕ → Except String Unit)
    (bp : PromptBuildContext → String)
    (refs : PromptBuildContext → String → List String)
    (config : FlexicomicConfig) (outputDir provider : String) :
    (∀ (panels : List PanelToGenerate) (concurrencyOpt : Option ℕ) (st : GenState),
      (generatePanelParallel gen bp refs panels config outputDir
          concurrencyOpt provider st).completed
        = st.completed + panels.length) ∧
    (∀ (item : PanelToGenerate) (rest : List PanelToGenerate) (st : GenState),
      panelOutputPath outputDir item.panel ∉ st.fs →
      (∀ i, i < 3 → ((gen (panelOutputPath outputDir item.panel)) i).isOk = false) →
      ∃ e, (generatePanelSequential gen bp refs (item :: rest) config
              outputDir provider st).2 = .error e ∧
        (generatePanelSequential gen bp refs (item :: rest) config
            outputDir provider st).1.started
          = st.started ++ [item.panel.id]) := by
  constructor
  · intro panels concurrencyOpt st
    rw [parallel_eq_runAll]
    exact runAll_completed gen bp refs config outputDir provider panels st
  · intro item rest st hm hfail
    exact seq_error_head gen bp refs item rest config outputDir provider st hm hfail

theorem C4_failure_propagation_witness :
    (generatePanelParallel genBoom bp0 refs0 [jobA, jobB] cfgFx "out"
        (some 2) "google" ⟨[], 0, [], [], 0⟩).completed = 2 :=
  (C4_failure_propagation genBoom bp0 refs0 cfgFx "out" "google").1 [jobA, jobB] (some 2)
    ⟨[], 0, [], [], 0⟩

/-- C4 counterexample: a two-job sequential run whose first job always
fails propagates the error and never starts the second job. -/
theorem C4_counterexample :
    (generatePanelSequential genBoom bp0 refs0 [jobA, jobB] cfgFx "out" "google"
        ⟨[], 0, [], [], 0⟩).2 = .error "boom" ∧
    (generatePanelSequential genBoom bp0 refs0 [jobA, jobB] cfgFx "out" "google"
        ⟨[], 0, [], [], 0⟩).1.started = ["a"] := by
  constructor
  · decide
  · decide

/-- C6: under bounded-concurrency execution every job failure is
handled individually: the progress count reaches the total number of
scheduled jobs regardless of failures, every job whose file already
exists or whose provider succeeds within its 3 attempts ends with its
output file present, and every job whose output file is missing at
the end has logged a warning naming its panel id. -/
theorem C6_batch_isolation (gen : String → ℕ → Except String Unit)
    (bp : PromptBuildContext → String)
    (refs : PromptBuildContext → String → List String)
    (panels : List PanelToGenerate) (config : FlexicomicConfig)
    (outputDir : String) (concurrencyOpt : Option ℕ) (provider : String)
    (fs0 : List String) :
    ((generatePanelParallel gen bp refs panels config outputDir
        concurrencyOpt provider ⟨fs0, 0, [], [], 0⟩).completed = panels.length) ∧
    (∀ item ∈ panels,
      (panelOutputPath outputDir item.panel ∈ fs0 ∨
        jobSucceeds gen (panelOutputPath outputDir item.panel)) →
      panelOutputPath outputDir item.panel
        ∈ (generatePanelParallel gen bp refs panels config outputDir
            concurrencyOpt provider ⟨fs0, 0, [], [], 0⟩).fs) ∧
    (∀ item ∈ panels,
      panelOutputPath outputDir item.panel
          ∉ (generatePanelParallel gen bp refs panels config outputDir
              concurrencyOpt provider ⟨fs0, 0, [], [], 0⟩).fs →
      ∃ e, failWarning item e
        ∈ (generatePanelParallel gen bp refs panels config outputDir
            concurrencyOpt provider ⟨fs0, 0, [], [], 0⟩).warnings) := by
  rw [parallel_eq_runAll]
  refine ⟨?_, ?_, ?_⟩
  · rw [runAll_completed]
    simp
  · intro item hmem hsucc
    exact runAll_out_mem gen bp refs config outputDir provider panels _ item hmem hsucc
  · intro item hmem hout
    exact runAll_warn gen bp refs config outputDir provider panels _ item hmem hout

theorem C6_batch_isolation_witness :
    panelOutputPath "out" (pnl "c")
      ∈ (generatePanelParallel genBFails bp0 refs0 [jobA, jobB, jobC] cfgFx "out"
          (some 2) "google" ⟨[], 0, [], [], 0⟩).fs :=
  (C6_batch_isolation genBFails bp0 refs0 [jobA, jobB, jobC] cfgFx "out"
      (some 2) "google" []).2.1 jobC (by decide)
    (Or.inr ⟨0, by omega, by decide⟩)

/-- C1 (amended): for every grid, page size and panel,
`calculatePanelBoundsCustom` computes exactly the spec formulas
(cellWidth = (width − gutter×(cols+1))/cols and its companions), with
the corrected defaulting rule: `gutter` defaults to 10 when absent OR
zero, and `rowspan`/`colspan` default to 1 when absent or zero (the JS
`||` idiom); in particular a panel with `colspan = 2` is exactly
`2 × cellWidth + gutter` wide, absorbing the internal gutter. The
original claim (gutter defaults only when absent) is refuted by
`C1_counterexample`. -/
theorem C1_panel_bounds (panel : PanelConfig) (grid : GridSpec) (pageSize : PageSize) :
    calculatePanelBoundsCustom panel grid pageSize
      = specPanelBoundsC1Amended panel grid pageSize ∧
    (panel.colspan = some 2 →
      (calculatePanelBoundsCustom panel grid pageSize).w
        = 2 * cellWidthOf grid pageSize + gutterOf grid) := by
  constructor
  · rfl
  · intro h
    simp only [calculatePanelBoundsCustom, cellWidthOf, gutterOf, h, jsOrQ]
    norm_num

theorem C1_panel_bounds_witness :
    (calculatePanelBoundsCustom panelSpan2 ⟨2, 2, none⟩ ⟨1200, 1600⟩).w
      = 2 * cellWidthOf ⟨2, 2, none⟩ ⟨1200, 1600⟩ + gutterOf ⟨2, 2, none⟩ :=
  (C1_panel_bounds panelSpan2 ⟨2, 2, none⟩ ⟨1200, 1600⟩).2 rfl

/-- C1 counterexample: at an explicit `gutter = 0` (as the splash
layout produces) the code uses the default 10, so the bounds differ
from the spec formula evaluated at gutter 0. -/
theorem C1_counterexample :
    calculatePanelBoundsCustom pgA ⟨1, 1, some 0⟩ ⟨100, 100⟩
      ≠ specPanelBoundsC1 pgA ⟨1, 1, some 0⟩ ⟨100, 100⟩ := by
  with_unfolding_all decide

/-- C10: the default-grid lookup is the fixed total mapping of the
claim: "2x2-grid" gives 2 x 2 gutter 10, "cinematic" 3 x 2 gutter 10,
"dense" 3 x 3 gutter 8, "splash" 1 x 1 gutter 0, "webtoon" panel-count
rows x 1 column gutter 5, and every other tag (including "custom")
2 x 2 gutter 10; every returned grid has cols ≥ 1, and rows ≥ 1
except a "webtoon" page with zero panels, which yields rows = 0. -/
theorem C10_layout_grid_lookup :
    (∀ n, getLayoutGrid "2x2-grid" n = ⟨2, 2, some 10⟩) ∧
    (∀ n, getLayoutGrid "cinematic" n = ⟨3, 2, some 10⟩) ∧
    (∀ n, getLayoutGrid "dense" n = ⟨3, 3, some 8⟩) ∧
    (∀ n, getLayoutGrid "splash" n = ⟨1, 1, some 0⟩) ∧
    (∀ n, getLayoutGrid "webtoon" n = ⟨(n : ℚ), 1, some 5⟩) ∧
    (∀ s n, s ∉ ["2x2-grid", "cinematic", "webtoon", "dense", "splash"] →
      getLayoutGrid s n = ⟨2, 2, some 10⟩) ∧
    (∀ s n, 1 ≤ (getLayoutGrid s n).cols ∧
      (1 ≤ (getLayoutGrid s n).rows ∨ (s = "webtoon" ∧ n = 0))) ∧
    (getLayoutGrid "webtoon" 0).rows = 0 := by
  refine ⟨?_, ?_, ?_, ?_, ?_, ?_, ?_, ?_⟩
  · intro n; rfl
  · intro n; rfl
  · intro n; rfl
  · intro n; rfl
  · intro n; rfl
  · intro s n h
    simp only [List.mem_cons, List.not_mem_nil, or_false] at h
    push_neg at h
    obtain ⟨h1, h2, h3, h4, h5⟩ := h
    simp [getLayoutGrid, h1, h2, h3, h4, h5]
  · intro s n
    unfold getLayoutGrid
    split_ifs with h1 h2 h3 h4 h5
    · constructor
      · norm_num
      · left; norm_num
    · constructor
      · norm_num
      · left; norm_num
    · constructor
      · norm_num
      · cases n with
        | zero => right; exact ⟨h3, rfl⟩
        | succ m =>
          left
          have hcast : (1 : ℚ) ≤ ((m + 1 : ℕ) : ℚ) := by
            exact_mod_cast Nat.succ_le_succ (Nat.zero_le m)
          simp only [getLayoutGrid]
          exact hcast
    · constructor
      · norm_num
      · left; norm_num
    · constructor
      · norm_num
      · left; norm_num
    · constructor
      · norm_num
      · left; norm_num
  · simp [getLayoutGrid]

theorem C10_layout_grid_lookup_witness :
    getLayoutGrid "custom" 7 = ⟨2, 2, some 10⟩ :=
  C10_layout_grid_lookup.2.2.2.2.2.1 "custom" 7 (by decide)

theorem jsSetDedupAux_subset {α : Type} [DecidableEq α] :
    ∀ (l seen : List α) (a : α), a ∈ jsSetDedupAux seen l → a ∈ l := by
  intro l
  induction l with
  | nil => intro seen a h; simp [jsSetDedupAux] at h
  | cons hd tl ih =>
    intro seen a h
    simp only [jsSetDedupAux] at h
    split_ifs at h with hmem
    · exact List.mem_cons_of_mem _ (ih seen a h)
    · rcases List.mem_cons.mp h with heq | htl
      · exact heq ▸ List.mem_cons_self _ _
      · exact List.mem_cons_of_mem _ (ih _ a htl)

theorem jsSetDedupAux_nodup {α : Type} [DecidableEq α] :
    ∀ (l seen : List α),
      (jsSetDedupAux seen l).Nodup ∧ ∀ a ∈ jsSetDedupAux seen l, a ∉ seen := by
  intro l
  induction l with
  | nil => intro seen; simp [jsSetDedupAux]
  | cons hd tl ih =>
    intro seen
    simp only [jsSetDedupAux]
    split_ifs with hmem
    · exact ih seen
    · obtain ⟨hnd, hout⟩ := ih (hd :: seen)
      refine ⟨List.nodup_cons.mpr ⟨?_, hnd⟩, ?_⟩
      · intro hin
        exact hout hd hin (List.mem_cons_self _ _)
      · intro a ha
        rcases List.mem_cons.mp ha with heq | htl
        · exact heq ▸ hmem
        · intro hseen
          exact hout a htl (List.mem_cons_of_mem _ hseen)

theorem jsSetDedup_subset {α : Type} [DecidableEq α] (l : List α) (a : α)
    (h : a ∈ jsSetDedup l) : a ∈ l :=
  jsSetDedupAux_subset l [] a h

theorem jsSetDedup_nodup {α : Type} [DecidableEq α] (l : List α) :
    (jsSetDedup l).Nodup :=
  (jsSetDedupAux_nodup l []).1

theorem foldlM_parts_mem {α : Type} (step : String → Except String (List α)) :
    ∀ (parts : List String) (acc res : List α),
      parts.foldlM (fun acc part => do
        let xs ← step part
        pure (acc ++ xs)) acc = .ok res →
      ∀ x ∈ res, x ∈ acc ∨ ∃ part ∈ parts, ∃ xs, step part = .ok xs ∧ x ∈ xs := by
  intro parts
  induction parts with
  | nil =>
    intro acc res h x hx
    simp only [List.foldlM_nil] at h
    cases h
    exact Or.inl hx
  | cons hd tl ih =>
    intro acc res h x hx
    simp only [List.foldlM_cons] at h
    cases hstep : step hd with
    | error e =>
      rw [hstep] at h
      change (Except.error e : Except String (List α)) = Except.ok res at h
      cases h
    | ok xs =>
      rw [hstep] at h
      change List.foldlM _ (acc ++ xs) tl = Except.ok res at h
      rcases ih (acc ++ xs) res h x hx with hin | ⟨part, hp, ys, hys, hmem⟩
      · rcases List.mem_append.mp hin with hl | hr
        · exact Or.inl hl
        · exact Or.inr ⟨hd, List.mem_cons_self _ _, xs, hstep, hr⟩
      · exact Or.inr ⟨part, List.mem_cons_of_mem _ hp, ys, hys, hmem⟩

theorem pageRangePart_bounds (tp : ℕ) (part : String) (out : List ℤ)
    (h : pageRangePart tp part = .ok out) :
    ∀ i ∈ out, 1 ≤ i ∧ i ≤ (tp : ℤ) := by
  intro i hi
  simp only [pageRangePart] at h
  split_ifs at h with hdash
  · split at h
    · cases h
      simp only [List.mem_filter, decide_eq_true_eq, Bool.and_eq_true] at hi
      exact ⟨hi.2.1, hi.2.2⟩
    · cases h
  · split at h
    · cases h
      split_ifs at hi with hin
      · simp only [List.mem_singleton] at hi
        subst hi
        exact hin
      · simp at hi
    · cases h

theorem panelRangePart_mem (page : PageConfig) (part : String) (out : List String)
    (h : panelRangePart page part = .ok out) :
    ∀ x ∈ out, ∃ panel ∈ page.layout.panels, panel.id = x := by
  intro x hx
  simp only [panelRangePart] at h
  split_ifs at h with hdash
  · split at h
    · cases h
      obtain ⟨i, hi, hsome⟩ := List.mem_filterMap.mp hx
      split_ifs at hsome with hin
      obtain ⟨panel, hget, hid⟩ := Option.map_eq_some'.mp hsome
      rw [List.get?_eq_getElem?] at hget
      exact ⟨panel, List.getElem?_mem hget, hid⟩
    · cases h
  · split at h
    · cases h
      split_ifs at hx with hin
      · obtain ⟨panel, hget, hid⟩ := Option.map_eq_some'.mp (by
          simpa using hx)
        exact ⟨panel, List.getElem?_mem hget, hid⟩
      · simp at hx
    · cases h

theorem validatePageRange_ok (range : String) (tp : ℕ) (out : List ℤ)
    (h : validatePageRange range tp = .ok out) :
    (∀ i ∈ out, 1 ≤ i ∧ i ≤ (tp : ℤ)) ∧ out.Nodup ∧ List.Sorted (· ≤ ·) out := by
  have hdef : validatePageRange range tp
      = ((jsSplit range ',').foldlM (fun acc part => do
          let xs ← pageRangePart tp part
          pure (acc ++ xs)) ([] : List ℤ)).bind (fun collected =>
            .ok (List.insertionSort (· ≤ ·) (jsSetDedup collected))) := rfl
  rw [hdef] at h
  cases hfold : (jsSplit range ',').foldlM (fun acc part => do
      let xs ← pageRangePart tp part
      pure (acc ++ xs)) ([] : List ℤ) with
  | error e => rw [hfold] at h; cases h
  | ok collected =>
    rw [hfold] at h
    cases h
    have hperm : List.Perm (List.insertionSort (· ≤ ·) (jsSetDedup collected))
        (jsSetDedup collected) :=
      List.perm_insertionSort _ _
    refine ⟨?_, ?_, ?_⟩
    · intro i hi
      have hidedup : i ∈ jsSetDedup collected := hperm.mem_iff.mp hi
      have hicoll : i ∈ collected := jsSetDedup_subset collected i hidedup
      rcases foldlM_parts_mem (pageRangePart tp) (jsSplit range ',') [] collected hfold i hicoll
        with hin | ⟨part, _, xs, hxs, hmem⟩
      · simp at hin
      · exact pageRangePart_bounds tp part xs hxs i hmem
    · exact hperm.nodup_iff.mpr (jsSetDedup_nodup collected)
    · exact List.sorted_insertionSort _ _

theorem validatePanelRange_ok (range : String) (pages : List PageConfig)
    (out : List String) (h : validatePanelRange range pages = .ok out) :
    out.Nodup ∧
    ∃ page, pages.find? (fun p => decide (p.id = (jsSplit range ':').getD 0 "")) = some page ∧
      ∀ x ∈ out, ∃ panel ∈ page.layout.panels, panel.id = x := by
  by_cases hempty : (jsSplit range ':').getD 1 "" = ""
  · exfalso
    have hv : validatePanelRange range pages
        = .error "Invalid panel range format. Expected: pageId:range (e.g., page1:1-3)" := by
      simp only [validatePanelRange, if_pos hempty]
    rw [hv] at h
    cases h
  · cases hfind : pages.find? (fun p => decide (p.id = (jsSplit range ':').getD 0 "")) with
    | none =>
      exfalso
      have hv : validatePanelRange range pages
          = .error ("Page not found: " ++ (jsSplit range ':').getD 0 "") := by
        simp only [validatePanelRange, if_neg hempty, hfind]
      rw [hv] at h
      cases h
    | some page =>
      have hdef : validatePanelRange range pages
          = ((jsSplit ((jsSplit range ':').getD 1 "") ',').foldlM (fun acc part => do
              let xs ← panelRangePart page part
              pure (acc ++ xs)) ([] : List String)).bind
            (fun collected => .ok (jsSetDedup collected)) := by
        simp only [validatePanelRange, if_neg hempty, hfind]
        rfl
      rw [hdef] at h
      cases hfold : (jsSplit ((jsSplit range ':').getD 1 "") ',').foldlM (fun acc part => do
          let xs ← panelRangePart page part
          pure (acc ++ xs)) ([] : List String) with
      | error e =>
        rw [hfold] at h
        cases h
      | ok collected =>
        rw [hfold] at h
        cases h
        refine ⟨jsSetDedup_nodup collected, page, rfl, ?_⟩
        intro x hx
        have hcoll : x ∈ collected := jsSetDedup_subset collected x hx
        rcases foldlM_parts_mem (panelRangePart page)
            (jsSplit ((jsSplit range ':').getD 1 "") ',') [] collected hfold x hcoll
          with hin | ⟨part, _, xs, hxs, hmem⟩
        · simp at hin
        · exact panelRangePart_mem page part xs hxs x hmem

theorem validatePanelRange_pageNotFound (range : String) (pages : List PageConfig)
    (h1 : (jsSplit range ':').getD 1 "" ≠ "")
    (h2 : pages.find? (fun p => decide (p.id = (jsSplit range ':').getD 0 "")) = none) :
    validatePanelRange range pages
      = .error ("Page not found: " ++ (jsSplit range ':').getD 0 "") := by
  simp only [validatePanelRange, if_neg h1, h2]

theorem collectPanels_skip_missing (config : FlexicomicConfig)
    (l1 l2 : List ℤ) (i : ℤ) (sel : Option (List String))
    (h : (if 1 ≤ i then config.pages.get? (i - 1).toNat else none) = none) :
    collectPanels config (l1 ++ i :: l2) sel = collectPanels config (l1 ++ l2) sel := by
  unfold collectPanels
  rw [List.foldl_append, List.foldl_append, List.foldl_cons]
  congr 1
  rw [List.get?_eq_getElem?, Int.pred_toNat] at h
  simp [h]

theorem rangeListJS_mem (a b i : ℤ) : i ∈ rangeListJS a b ↔ a ≤ i ∧ i ≤ b := by
  unfold rangeListJS
  rw [List.mem_map]
  constructor
  · rintro ⟨k, hk, rfl⟩
    rw [List.mem_range] at hk
    omega
  · intro h
    refine ⟨(i - a).toNat, ?_, ?_⟩
    · rw [List.mem_range]
      omega
    · omega

theorem pageRangePart_ranged (tp : ℕ) (part : String) (start stop : ℤ)
    (hdash : jsIncludes (jsTrim part) '-' = true)
    (h0 : ((jsSplit (jsTrim part) '-').map (fun s => parseIntJS (jsTrim s))).getD 0 none
      = some start)
    (h1 : ((jsSplit (jsTrim part) '-').map (fun s => parseIntJS (jsTrim s))).getD 1 none
      = some stop) :
    pageRangePart tp part
      = .ok ((rangeListJS start stop).filter
          (fun i => decide (1 ≤ i) && decide (i ≤ (tp : ℤ)))) := by
  simp only [pageRangePart, if_pos hdash, h0, h1]

theorem pageRangePart_ranged_mem (tp : ℕ) (part : String) (start stop : ℤ)
    (hdash : jsIncludes (jsTrim part) '-' = true)
    (h0 : ((jsSplit (jsTrim part) '-').map (fun s => parseIntJS (jsTrim s))).getD 0 none
      = some start)
    (h1 : ((jsSplit (jsTrim part) '-').map (fun s => parseIntJS (jsTrim s))).getD 1 none
      = some stop) :
    ∃ out, pageRangePart tp part = .ok out ∧
      ∀ i, i ∈ out ↔ (start ≤ i ∧ i ≤ stop ∧ 1 ≤ i ∧ i ≤ (tp : ℤ)) := by
  refine ⟨_, pageRangePart_ranged tp part start stop hdash h0 h1, ?_⟩
  intro i
  simp only [List.mem_filter, rangeListJS_mem, Bool.and_eq_true, decide_eq_true_eq]
  tauto

theorem pageRangePart_single_oob (tp : ℕ) (part : String) (p : ℤ)
    (hdash : ¬ jsIncludes (jsTrim part) '-' = true)
    (hp : parseIntJS (jsTrim part) = some p)
    (hout : ¬ (1 ≤ p ∧ p ≤ (tp : ℤ))) :
    pageRangePart tp part = .ok [] := by
  simp only [pageRangePart, if_neg hdash, hp, if_neg hout]

theorem panelRangePart_ranged (page : PageConfig) (part : String) (start stop : ℤ)
    (hdash : jsIncludes (jsTrim part) '-' = true)
    (h0 : ((jsSplit (jsTrim part) '-').map (fun s => parseIntJS (jsTrim s))).getD 0 none
      = some start)
    (h1 : ((jsSplit (jsTrim part) '-').map (fun s => parseIntJS (jsTrim s))).getD 1 none
      = some stop) :
    ∃ out, panelRangePart page part = .ok out ∧
      ∀ x, x ∈ out ↔ ∃ i : ℤ, start ≤ i ∧ i ≤ stop ∧ 1 ≤ i ∧
        i ≤ (page.layout.panels.length : ℤ) ∧
        (page.layout.panels.get? (i - 1).toNat).map (fun q => q.id) = some x := by
  have heq : panelRangePart page part
      = .ok ((rangeListJS start stop).filterMap (fun i =>
          if 1 ≤ i ∧ i ≤ (page.layout.panels.length : ℤ) then
            (page.layout.panels.get? (i - 1).toNat).map (fun q => q.id)
          else none)) := by
    simp only [panelRangePart, if_pos hdash, h0, h1]
  refine ⟨_, heq, ?_⟩
  intro x
  simp only [List.mem_filterMap, rangeListJS_mem]
  constructor
  · rintro ⟨i, hi, hsome⟩
    by_cases hin : 1 ≤ i ∧ i ≤ (page.layout.panels.length : ℤ)
    · rw [if_pos hin] at hsome
      exact ⟨i, hi.1, hi.2, hin.1, hin.2, hsome⟩
    · rw [if_neg hin] at hsome
      cases hsome
  · rintro ⟨i, ha, hb, hc, hd, hsome⟩
    exact ⟨i, ⟨ha, hb⟩, by rw [if_pos ⟨hc, hd⟩]; exact hsome⟩

theorem foldlM_ok_of_all {α : Type} (step : String → Except String (List α)) :
    ∀ (parts : List String) (acc : List α),
      (∀ part ∈ parts, ∃ xs, step part = .ok xs) →
      ∃ res, parts.foldlM (fun acc part => do
        let xs ← step part
        pure (acc ++ xs)) acc = .ok res := by
  intro parts
  induction parts with
  | nil => intro acc _; exact ⟨acc, rfl⟩
  | cons hd tl ih =>
    intro acc h
    obtain ⟨xs, hxs⟩ := h hd (List.mem_cons_self _ _)
    obtain ⟨res, hres⟩ := ih (acc ++ xs) (fun part hp => h part (List.mem_cons_of_mem _ hp))
    refine ⟨res, ?_⟩
    rw [List.foldlM_cons, hxs]
    change List.foldlM _ (acc ++ xs) tl = Except.ok res
    exact hres

theorem validatePageRange_accepts (range : String) (tp : ℕ)
    (h : ∀ part ∈ jsSplit range ',', ∃ xs, pageRangePart tp part = .ok xs) :
    ∃ out, validatePageRange range tp = .ok out := by
  obtain ⟨res, hres⟩ := foldlM_ok_of_all (pageRangePart tp) (jsSplit range ',') [] h
  refine ⟨List.insertionSort (· ≤ ·) (jsSetDedup res), ?_⟩
  have hdef : validatePageRange range tp
      = ((jsSplit range ',').foldlM (fun acc part => do
          let xs ← pageRangePart tp part
          pure (acc ++ xs)) ([] : List ℤ)).bind (fun collected =>
            .ok (List.insertionSort (· ≤ ·) (jsSetDedup collected))) := rfl
  rw [hdef, hres]
  rfl

theorem jsSetDedupAux_sublist {α : Type} [DecidableEq α] :
    ∀ (l seen : List α), List.Sublist (jsSetDedupAux seen l) l := by
  intro l
  induction l with
  | nil => intro seen; simp [jsSetDedupAux]
  | cons hd tl ih =>
    intro seen
    simp only [jsSetDedupAux]
    split_ifs with hmem
    · exact List.Sublist.cons hd (ih seen)
    · exact List.Sublist.cons₂ hd (ih (hd :: seen))

theorem jsSetDedup_sublist {α : Type} [DecidableEq α] (l : List α) :
    List.Sublist (jsSetDedup l) l :=
  jsSetDedupAux_sublist l []

theorem jsSetDedupAux_mem_of {α : Type} [DecidableEq α] :
    ∀ (l seen : List α) (x : α), x ∈ l → x ∉ seen → x ∈ jsSetDedupAux seen l := by
  intro l
  induction l with
  | nil => intro seen x hx; simp at hx
  | cons hd tl ih =>
    intro seen x hx hseen
    simp only [jsSetDedupAux]
    split_ifs with hmem
    · rcases List.mem_cons.mp hx with heq | htl
      · exact absurd (heq ▸ hmem) hseen
      · exact ih seen x htl hseen
    · rcases List.mem_cons.mp hx with heq | htl
      · exact heq ▸ List.mem_cons_self _ _
      · by_cases hxhd : x = hd
        · exact hxhd ▸ List.mem_cons_self _ _
        · refine List.mem_cons_of_mem _ (ih (hd :: seen) x htl ?_)
          simp [hxhd, hseen]

theorem jsSetDedup_mem_iff {α : Type} [DecidableEq α] (l : List α) (x : α) :
    x ∈ jsSetDedup l ↔ x ∈ l :=
  ⟨jsSetDedup_subset l x, fun h => jsSetDedupAux_mem_of l [] x h (by simp)⟩

theorem validatePanelRange_dedup (range : String) (pages : List PageConfig)
    (out : List String) (h : validatePanelRange range pages = .ok out) :
    ∃ collected, out = jsSetDedup collected := by
  by_cases hempty : (jsSplit range ':').getD 1 "" = ""
  · exfalso
    have hv : validatePanelRange range pages
        = .error "Invalid panel range format. Expected: pageId:range (e.g., page1:1-3)" := by
      simp only [validatePanelRange, if_pos hempty]
    rw [hv] at h
    cases h
  · cases hfind : pages.find? (fun p => decide (p.id = (jsSplit range ':').getD 0 "")) with
    | none =>
      exfalso
      have hv : validatePanelRange range pages
          = .error ("Page not found: " ++ (jsSplit range ':').getD 0 "") := by
        simp only [validatePanelRange, if_neg hempty, hfind]
      rw [hv] at h
      cases h
    | some page =>
      have hdef : validatePanelRange range pages
          = ((jsSplit ((jsSplit range ':').getD 1 "") ',').foldlM (fun acc part => do
              let xs ← panelRangePart page part
              pure (acc ++ xs)) ([] : List String)).bind
            (fun collected => .ok (jsSetDedup collected)) := by
        simp only [validatePanelRange, if_neg hempty, hfind]
        rfl
      rw [hdef] at h
      cases hfold : (jsSplit ((jsSplit range ':').getD 1 "") ',').foldlM (fun acc part => do
          let xs ← panelRangePart page part
          pure (acc ++ xs)) ([] : List String) with
      | error e =>
        rw [hfold] at h
        cases h
      | ok collected =>
        rw [hfold] at h
        cases h
        exact ⟨collected, rfl⟩

/-- C5 (amended): out-of-range numeric page and panel selections are
excluded rather than rejected — a hyphenated range with numeric
endpoints is always accepted and yields exactly the in-range indices,
a single out-of-range page number yields the empty selection, a range
string all of whose items are numeric is accepted as a whole, and
"1-3" against a 2-page project yields pages 1 and 2 while "p:1-5" on
a 2-panel page yields both panels, without error; page indices that
match no page are skipped by the job-collection loop without error;
panel ids returned by a panel selection always belong to the selected
page; but a panel selector whose pageId matches no page in the
project raises a "Page not found" error rather than being omitted.
The original claim (no error is raised) is refuted by
`C5_counterexample`. -/
theorem C5_lenient_selection :
    (∀ (range : String) (tp : ℕ) (out : List ℤ), validatePageRange range tp = .ok out →
      ∀ i ∈ out, 1 ≤ i ∧ i ≤ (tp : ℤ)) ∧
    (∀ (tp : ℕ) (part : String) (start stop : ℤ),
      jsIncludes (jsTrim part) '-' = true →
      ((jsSplit (jsTrim part) '-').map (fun s => parseIntJS (jsTrim s))).getD 0 none
        = some start →
      ((jsSplit (jsTrim part) '-').map (fun s => parseIntJS (jsTrim s))).getD 1 none
        = some stop →
      ∃ out, pageRangePart tp part = .ok out ∧
        ∀ i, i ∈ out ↔ (start ≤ i ∧ i ≤ stop ∧ 1 ≤ i ∧ i ≤ (tp : ℤ))) ∧
    (∀ (tp : ℕ) (part : String) (p : ℤ),
      ¬ jsIncludes (jsTrim part) '-' = true →
      parseIntJS (jsTrim part) = some p →
      ¬ (1 ≤ p ∧ p ≤ (tp : ℤ)) →
      pageRangePart tp part = .ok []) ∧
    (∀ (range : String) (tp : ℕ),
      (∀ part ∈ jsSplit range ',', ∃ xs, pageRangePart tp part = .ok xs) →
      ∃ out, validatePageRange range tp = .ok out) ∧
    (∀ (config : FlexicomicConfig) (l1 l2 : List ℤ) (i : ℤ) (sel : Option (List String)),
      (if 1 ≤ i then config.pages.get? (i - 1).toNat else none) = none →
      collectPanels config (l1 ++ i :: l2) sel = collectPanels config (l1 ++ l2) sel) ∧
    (∀ (range : String) (pages : List PageConfig) (out : List String),
      validatePanelRange range pages = .ok out →
      ∃ page, pages.find? (fun p => decide (p.id = (jsSplit range ':').getD 0 "")) = some page ∧
        ∀ x ∈ out, ∃ panel ∈ page.layout.panels, panel.id = x) ∧
    (∀ (range : String) (pages : List PageConfig),
      (jsSplit range ':').getD 1 "" ≠ "" →
      pages.find? (fun p => decide (p.id = (jsSplit range ':').getD 0 "")) = none →
      validatePanelRange range pages
        = .error ("Page not found: " ++ (jsSplit range ':').getD 0 "")) ∧
    (validatePageRange "1-3" 2 = .ok [1, 2] ∧
      validatePanelRange "p:1-5" [pg1] = .ok ["a", "b"]) := by
  refine ⟨?_, ?_, ?_, ?_, ?_, ?_, ?_, by decide, by decide⟩
  · intro range tp out h
    exact (validatePageRange_ok range tp out h).1
  · intro tp part start stop hdash h0 h1
    exact pageRangePart_ranged_mem tp part start stop hdash h0 h1
  · intro tp part p hdash hp hout
    exact pageRangePart_single_oob tp part p hdash hp hout
  · intro range tp h
    exact validatePageRange_accepts range tp h
  · intro config l1 l2 i sel h
    exact collectPanels_skip_missing config l1 l2 i sel h
  · intro range pages out h
    exact (validatePanelRange_ok range pages out h).2
  · intro range pages h1 h2
    exact validatePanelRange_pageNotFound range pages h1 h2

theorem C5_lenient_selection_witness :
    validatePanelRange "nothere:1" [pg1] = .error "Page not found: nothere" := by
  have h := C5_lenient_selection.2.2.2.2.2.2.1 "nothere:1" [pg1] (by decide) (by decide)
  have hid : (jsSplit "nothere:1" ':').getD 0 "" = "nothere" := by decide
  rw [hid] at h
  exact h

/-- C5 counterexample: a panel selector naming a page absent from the
project raises an error instead of producing no jobs. -/
theorem C5_counterexample :
    validatePanelRange "absent:1-2" [pg1] = .error "Page not found: absent" := by
  decide

/-- C7 (amended): page selections are in-range, de-duplicated and
sorted ascending, and the example range "1,3" against a 3-page
project yields exactly pages 1 and 3 in that order; out-of-range
numeric endpoints are excluded, not rejected: a hyphenated page range
with numeric endpoints is always accepted and equals the in-range
filter of the inclusive range, a hyphenated panel range with numeric
endpoints is always accepted and contains exactly the panels at
in-range 1-based indices (so "p:0-9" on a 2-panel page yields both
panels), and panel selections are de-duplicated keeping the first
occurrence of each id — the result is an order-preserving sublist of
the collected ids, NOT re-sorted on the numeric ordering key. The
original claim (panel selections sorted too) is refuted by
`C7_counterexample`. -/
theorem C7_range_parsing :
    (∀ (range : String) (tp : ℕ) (out : List ℤ), validatePageRange range tp = .ok out →
      (∀ i ∈ out, 1 ≤ i ∧ i ≤ (tp : ℤ)) ∧ out.Nodup ∧ List.Sorted (· ≤ ·) out) ∧
    (∀ (tp : ℕ) (part : String) (start stop : ℤ),
      jsIncludes (jsTrim part) '-' = true →
      ((jsSplit (jsTrim part) '-').map (fun s => parseIntJS (jsTrim s))).getD 0 none
        = some start →
      ((jsSplit (jsTrim part) '-').map (fun s => parseIntJS (jsTrim s))).getD 1 none
        = some stop →
      pageRangePart tp part
        = .ok ((rangeListJS start stop).filter
            (fun i => decide (1 ≤ i) && decide (i ≤ (tp : ℤ))))) ∧
    (∀ (page : PageConfig) (part : String) (start stop : ℤ),
      jsIncludes (jsTrim part) '-' = true →
      ((jsSplit (jsTrim part) '-').map (fun s => parseIntJS (jsTrim s))).getD 0 none
        = some start →
      ((jsSplit (jsTrim part) '-').map (fun s => parseIntJS (jsTrim s))).getD 1 none
        = some stop →
      ∃ out, panelRangePart page part = .ok out ∧
        ∀ x, x ∈ out ↔ ∃ i : ℤ, start ≤ i ∧ i ≤ stop ∧ 1 ≤ i ∧
          i ≤ (page.layout.panels.length : ℤ) ∧
          (page.layout.panels.get? (i - 1).toNat).map (fun q => q.id) = some x) ∧
    (∀ (range : String) (pages : List PageConfig) (out : List String),
      validatePanelRange range pages = .ok out →
      ∃ collected, out = jsSetDedup collected ∧
        List.Sublist out collected ∧ out.Nodup) ∧
    (validatePageRange "1,3" 3 = .ok [1, 3] ∧
      validatePanelRange "p:0-9" [pg1] = .ok ["a", "b"]) := by
  refine ⟨?_, ?_, ?_, ?_, by decide, by decide⟩
  · intro range tp out h
    exact validatePageRange_ok range tp out h
  · intro tp part start stop hdash h0 h1
    exact pageRangePart_ranged tp part start stop hdash h0 h1
  · intro page part start stop hdash h0 h1
    exact panelRangePart_ranged page part start stop hdash h0 h1
  · intro range pages out h
    obtain ⟨collected, hcoll⟩ := validatePanelRange_dedup range pages out h
    subst hcoll
    exact ⟨collected, rfl, jsSetDedup_sublist collected, jsSetDedup_nodup collected⟩

theorem C7_range_parsing_witness :
    (∀ i ∈ [(1 : ℤ), 3], 1 ≤ i ∧ i ≤ ((3 : ℕ) : ℤ)) ∧
    ([(1 : ℤ), 3]).Nodup ∧ List.Sorted (· ≤ ·) [(1 : ℤ), 3] :=
  C7_range_parsing.1 "1,3" 3 [1, 3] (by decide)

/-- C7 counterexample: the panel selection "p:2,1" yields the ids in
input order [b, a], whose 1-based index keys [2, 1] are not sorted
ascending. -/
theorem C7_counterexample :
    validatePanelRange "p:2,1" [pg1] = .ok ["b", "a"] ∧
    ["b", "a"].map (panelOrderKey pg1) = [2, 1] ∧
    ¬ List.Sorted (· ≤ ·) (["b", "a"].map (panelOrderKey pg1)) := by
  refine ⟨by decide, by decide, ?_⟩
  intro hsort
  have : (2 : ℕ) ≤ 1 := List.rel_of_sorted_cons hsort 1 (by decide)
  omega

theorem jsModQ_natCast (a b : ℕ) (hb : b ≠ 0) :
    jsModQ (a : ℚ) (b : ℚ) = ((a % b : ℕ) : ℚ) := by
  have hbq : ((b : ℚ)) ≠ 0 := Nat.cast_ne_zero.mpr hb
  have hnonneg : (0 : ℚ) ≤ (a : ℚ) / (b : ℚ) :=
    div_nonneg (Nat.cast_nonneg a) (Nat.cast_nonneg b)
  have key : ((⌊(a : ℚ) / (b : ℚ)⌋ : ℤ) : ℚ) = ((a / b : ℕ) : ℚ) := by
    rw [← Int.natCast_floor_eq_floor hnonneg]
    rw [Rat.natFloor_natCast_div_natCast a b]
    push_cast
    rfl
  have hmod := Nat.mod_add_div a b
  have hcast : ((a % b : ℕ) : ℚ) + ((b : ℕ) : ℚ) * ((a / b : ℕ) : ℚ) = ((a : ℕ) : ℚ) := by
    exact_mod_cast hmod
  unfold jsModQ jsTrunc
  rw [if_neg hbq, if_pos hnonneg, key]
  linarith

theorem gcdJS_natCast :
    ∀ (b a fuel : ℕ), b < fuel →
      gcdJS fuel (a : ℚ) (b : ℚ) = ((Nat.gcd a b : ℕ) : ℚ) := by
  intro b
  induction b using Nat.strong_induction_on with
  | _ b ih =>
    intro a fuel hfuel
    cases fuel with
    | zero => omega
    | succ f =>
      rw [show gcdJS (f + 1) (a : ℚ) (b : ℚ)
          = if (b : ℚ) = 0 then (a : ℚ) else gcdJS f (b : ℚ) (jsModQ (a : ℚ) (b : ℚ))
        from rfl]
      by_cases hb : b = 0
      · subst hb
        simp
      · rw [if_neg (by exact_mod_cast hb)]
        rw [jsModQ_natCast a b hb]
        have hlt : a % b < b := Nat.mod_lt _ (Nat.pos_of_ne_zero hb)
        rw [ih (a % b) hlt b f (by omega)]
        congr 1
        rw [Nat.gcd_comm b (a % b), ← Nat.gcd_rec b a, Nat.gcd_comm b a]

theorem jsRoundInt_natCast (n : ℕ) : jsRoundInt ((n : ℕ) : ℚ) = (n : ℤ) := by
  unfold jsRoundInt
  refine Int.floor_eq_iff.mpr ⟨?_, ?_⟩ <;> push_cast <;> linarith

theorem toString_intCast_nat (n : ℕ) : toString ((n : ℕ) : ℤ) = toString n := rfl

theorem calculatePanelAspectRatio_nat (w h : ℕ) (hw : 0 < w) (_hh : 0 < h) :
    calculatePanelAspectRatio (w : ℚ) (h : ℚ)
      = toString (w / Nat.gcd w h) ++ ":" ++ toString (h / Nat.gcd w h) := by
  have hg : 0 < Nat.gcd w h := Nat.gcd_pos_of_pos_left h hw
  have hgq : ((Nat.gcd w h : ℕ) : ℚ) ≠ 0 := Nat.cast_ne_zero.mpr (by omega)
  have hfuel : h < gcdFuelFor (w : ℚ) (h : ℚ) := by
    unfold gcdFuelFor
    rw [Rat.num_natCast, Rat.den_natCast, Rat.num_natCast, Rat.den_natCast]
    simp
    omega
  simp only [calculatePanelAspectRatio]
  rw [gcdJS_natCast h w (gcdFuelFor (w : ℚ) (h : ℚ)) hfuel]
  rw [show (w : ℚ) / ((Nat.gcd w h : ℕ) : ℚ) = ((w / Nat.gcd w h : ℕ) : ℚ) from
    (Nat.cast_div (Nat.gcd_dvd_left w h) hgq).symm]
  rw [show (h : ℚ) / ((Nat.gcd w h : ℕ) : ℚ) = ((h / Nat.gcd w h : ℕ) : ℚ) from
    (Nat.cast_div (Nat.gcd_dvd_right w h) hgq).symm]
  rw [jsRoundInt_natCast, jsRoundInt_natCast]
  rw [toString_intCast_nat, toString_intCast_nat]

/-- C8 (amended): the aspect ratio passed to the provider is the
panel's explicit override when present and non-empty, and otherwise
the computed bounds width and height reduced to lowest terms by their
greatest common divisor and formatted as "w:h"; for positive integer
bounds the reduction equals division by `Nat.gcd`, and 800 x 600
reduces to "4:3". The original claim (any present override is used)
is refuted by `C8_counterexample`: an empty-string override is
ignored. -/
theorem C8_aspect_ratio (gen : String → ℕ → Except String Unit)
    (bp : PromptBuildContext → String)
    (refs : PromptBuildContext → String → List String)
    (item : PanelToGenerate) (config : FlexicomicConfig)
    (outputDir provider : String) (fs : List String)
    (hm : panelOutputPath outputDir item.panel ∉ fs) :
    (∀ c ∈ (generateSinglePanel gen bp refs item config outputDir provider fs).1.providerCalls,
      c.ar = some (specAspectChoice item.panel
        (calculatePanelAspectRatio
          (calculatePanelBoundsCustom item.panel
            (item.page.layout.grid.getD
              (getLayoutGrid item.page.layout.type item.page.layout.panels.length))
            ⟨1200, 1600⟩).w
          (calculatePanelBoundsCustom item.panel
            (item.page.layout.grid.getD
              (getLayoutGrid item.page.layout.type item.page.layout.panels.length))
            ⟨1200, 1600⟩).h))) ∧
    (∀ (w h : ℕ), 0 < w → 0 < h →
      calculatePanelAspectRatio (w : ℚ) (h : ℚ)
        = toString (w / Nat.gcd w h) ++ ":" ++ toString (h / Nat.gcd w h)) ∧
    calculatePanelAspectRatio 800 600 = "4:3" := by
  refine ⟨?_, fun w h hw hh' => calculatePanelAspectRatio_nat w h hw hh',
    by with_unfolding_all rfl⟩
  intro c hc
  have hca := gsp_calls_ar gen bp refs item config outputDir provider fs hm c hc
  rw [hca]
  congr 1
  cases hA : item.panel.aspectRatio with
  | none => simp [jsOrStr, specAspectChoice, hA]
  | some s => simp only [jsOrStr, specAspectChoice, hA]

theorem C8_aspect_ratio_witness :
    calculatePanelAspectRatio ((800 : ℕ) : ℚ) ((600 : ℕ) : ℚ)
      = toString (800 / Nat.gcd 800 600) ++ ":" ++ toString (600 / Nat.gcd 800 600) :=
  (C8_aspect_ratio genOk bp0 refs0 jobA cfgFx "out" "google" [] (by decide)).2.1
    800 600 (by decide) (by decide)

/-- C8 counterexample: a panel whose aspectRatio override is the
empty string is present but ignored — the provider receives the
computed ratio instead. -/
theorem C8_counterexample :
    jobEmptyAR.panel.aspectRatio = some "" ∧
    ((generateSinglePanel genOk bp0 refs0 jobEmptyAR cfgFx "out" "google" []).1.providerCalls.map
      (fun c => c.ar)) = [some "117:157"] :=
  ⟨rfl, by with_unfolding_all decide⟩

theorem calculatePageSize_error_iff (config : FlexicomicConfig)
    (hw : config.pageSettings.width = none)
    (_hh : config.pageSettings.height = none) :
    (∃ e, calculatePageSize config = .error e) ↔
      malformedAspectRatioSpec config.pageSettings.aspectRatio := by
  have hcond : ¬ (jsOrQ config.pageSettings.width 0 ≠ 0 ∧
      jsOrQ config.pageSettings.height 0 ≠ 0) := by
    rw [hw]
    simp [jsOrQ]
  unfold calculatePageSize malformedAspectRatioSpec
  rw [if_neg hcond]
  cases hW : parseIntJS ((jsSplit config.pageSettings.aspectRatio ':').getD 0 "") with
  | none =>
    simp only [hW]
    simp
  | some w =>
    cases hH : parseIntJS ((jsSplit config.pageSettings.aspectRatio ':').getD 1 "") with
    | none =>
      simp only [hW, hH]
      simp
    | some h =>
      simp only [hW, hH]
      split_ifs with hle <;> simp [hle]

theorem compositePages_warn_single (config : FlexicomicConfig) (outputDir : String)
    (fs0 : List String) (pageIndex : ℤ) (page : PageConfig) (e : String)
    (hpg : (if 1 ≤ pageIndex then config.pages.get? (pageIndex - 1).toNat else none) = some page)
    (herr : calculatePageSize config = .error e) :
    ("Warning: Failed to compose " ++ page.id ++ ": " ++ e)
      ∈ (compositePages config outputDir (some [pageIndex]) fs0).2 := by
  simp only [compositePages, List.foldl_cons, List.foldl_nil, hpg, compositeSinglePage, herr]
  simp [Except.map]

theorem generateComic_parallel_total (gen : String → ℕ → Except String Unit)
    (bp : PromptBuildContext → String)
    (refs : PromptBuildContext → String → List String)
    (config : FlexicomicConfig) (outputDir provider : String)
    (oc : Option ℕ) (osk : Bool) (fs0 : List String)
    (hlen : 1 < (collectPanels config (pagesAll config) none).length) :
    ∃ r, generateComicModel gen bp refs config outputDir provider
        ⟨none, none, true, oc, osk⟩ fs0 = .ok r ∧
      r.state.completed = (collectPanels config (pagesAll config) none).length := by
  have hne : (collectPanels config (pagesAll config) none).isEmpty = false := by
    cases hj : collectPanels config (pagesAll config) none with
    | nil => rw [hj] at hlen; simp at hlen
    | cons a l => rfl
  have hcompleted : ∀ st0 : GenState, st0.completed = 0 →
      (generatePanelParallel gen bp refs (collectPanels config (pagesAll config) none)
        config outputDir oc provider st0).completed
      = (collectPanels config (pagesAll config) none).length := by
    intro st0 h0
    rw [parallel_eq_runAll, runAll_completed, h0]
    omega
  cases osk with
  | true =>
    have hrun : generateComicModel gen bp refs config outputDir provider
        ⟨none, none, true, oc, true⟩ fs0
        = .ok ⟨generatePanelParallel gen bp refs (collectPanels config (pagesAll config) none)
            config outputDir oc provider ⟨fs0, 0, [], [], 0⟩,
          collectPanels config (pagesAll config) none,
          [],
          (generatePanelParallel gen bp refs (collectPanels config (pagesAll config) none)
            config outputDir oc provider ⟨fs0, 0, [], [], 0⟩).fs⟩ := by
      simp only [generateComicModel, pure_bind, hne, Bool.false_eq_true, if_false]
      simp [hlen]
      rfl
    exact ⟨_, hrun, hcompleted ⟨fs0, 0, [], [], 0⟩ rfl⟩
  | false =>
    have hrun : generateComicModel gen bp refs config outputDir provider
        ⟨none, none, true, oc, false⟩ fs0
        = .ok ⟨generatePanelParallel gen bp refs (collectPanels config (pagesAll config) none)
            config outputDir oc provider ⟨fs0, 0, [], [], 0⟩,
          collectPanels config (pagesAll config) none,
          (compositePages config outputDir
            (some (pagesAll config))
            (generatePanelParallel gen bp refs (collectPanels config (pagesAll config) none)
              config outputDir oc provider ⟨fs0, 0, [], [], 0⟩).fs).2,
          (compositePages config outputDir
            (some (pagesAll config))
            (generatePanelParallel gen bp refs (collectPanels config (pagesAll config) none)
              config outputDir oc provider ⟨fs0, 0, [], [], 0⟩).fs).1⟩ := by
      simp only [generateComicModel, pure_bind, hne, Bool.false_eq_true, if_false]
      simp [hlen]
      rfl
    exact ⟨_, hrun, hcompleted ⟨fs0, 0, [], [], 0⟩ rfl⟩

/-- C9 (amended): for every configuration without explicit width and
height, `calculatePageSize` raises an error exactly when the
aspect-ratio string is malformed (a component non-numeric, zero or
negative); but that error is not fatal before jobs run: panel
generation never consults `calculatePageSize` (it uses a fixed
default canvas), the pipeline with a bounded-concurrency run
completes all jobs regardless of the aspect-ratio string, and during
composition the error is caught per page and logged as a warning. The
original claim (fatal, no job ever runs with it) is refuted by
`C9_counterexample`. -/
theorem C9_page_size_validation :
    (∀ config : FlexicomicConfig, config.pageSettings.width = none →
      config.pageSettings.height = none →
      ((∃ e, calculatePageSize config = .error e) ↔
        malformedAspectRatioSpec config.pageSettings.aspectRatio)) ∧
    (∀ (gen : String → ℕ → Except String Unit) (bp : PromptBuildContext → String)
      (refs : PromptBuildContext → String → List String) (config : FlexicomicConfig)
      (outputDir provider : String) (oc : Option ℕ) (osk : Bool) (fs0 : List String),
      1 < (collectPanels config (pagesAll config) none).length →
      ∃ r, generateComicModel gen bp refs config outputDir provider
          ⟨none, none, true, oc, osk⟩ fs0 = .ok r ∧
        r.state.completed = (collectPanels config (pagesAll config) none).length) ∧
    (∀ (config : FlexicomicConfig) (outputDir : String) (fs0 : List String)
      (pageIndex : ℤ) (page : PageConfig) (e : String),
      (if 1 ≤ pageIndex then config.pages.get? (pageIndex - 1).toNat else none) = some page →
      calculatePageSize config = .error e →
      ("Warning: Failed to compose " ++ page.id ++ ": " ++ e)
        ∈ (compositePages config outputDir (some [pageIndex]) fs0).2) := by
  refine ⟨?_, ?_, ?_⟩
  · intro config hw hh'
    exact calculatePageSize_error_iff config hw hh'
  · intro gen bp refs config outputDir provider oc osk fs0 hlen
    exact generateComic_parallel_total gen bp refs config outputDir provider oc osk fs0 hlen
  · intro config outputDir fs0 pageIndex page e hpg herr
    exact compositePages_warn_single config outputDir fs0 pageIndex page e hpg herr

theorem C9_page_size_validation_witness :
    (∃ e, calculatePageSize cfgBadAR = .error e) ↔
      malformedAspectRatioSpec cfgBadAR.pageSettings.aspectRatio :=
  C9_page_size_validation.1 cfgBadAR rfl rfl

/-- C9 counterexample: a configuration with the malformed aspect
ratio "0:1" and no explicit dimensions still runs both of its panel
jobs (2 provider calls) and completes with the page-size error
demoted to a composition warning. -/
theorem C9_counterexample :
    calculatePageSize cfgBadAR = .error "Invalid aspect ratio: 0:1" ∧
    ∃ r, generateComicModel genOk bp0 refs0 cfgBadAR "out" "google" optsC9 [] = .ok r ∧
      r.state.providerCalls = 2 ∧
      r.compositeWarnings = ["Warning: Failed to compose pk: Invalid aspect ratio: 0:1"] := by
  refine ⟨by decide, ?_⟩
  have h : (generateComicModel genOk bp0 refs0 cfgBadAR "out" "google" optsC9 []).map
      (fun r => (r.state.providerCalls, r.compositeWarnings))
      = .ok (2, ["Warning: Failed to compose pk: Invalid aspect ratio: 0:1"]) := by
    with_unfolding_all decide
  cases hg : generateComicModel genOk bp0 refs0 cfgBadAR "out" "google" optsC9 [] with
  | error e =>
    rw [hg] at h
    cases h
  | ok r =>
    rw [hg] at h
    simp only [Except.map, Except.ok.injEq, Prod.mk.injEq] at h
    exact ⟨r, rfl, h.1, h.2⟩
